import Mathlib

/-!
Verification of the Velocity document-processing and rule-evaluation
pipeline: a shallow embedding of the lease-based job claiming
(`claimOneParsingJob` / `claimOneAnalyzingJob`), the parsing worker POST
(`src/app/api/worker/files/process/route.ts`) and the rule-evaluation
worker POST (the analyzing route), with theorems about the claims of the
specification.

Conventions of the embedding:
* Firestore timestamps are naturals (milliseconds).
* A Firestore document is a record with every field the two workers read
  or write; a string field whose JS value may be `undefined` is modelled
  as `""` when the code only uses it through `String(x || "")`
  truthiness, and as `Option` when the code distinguishes presence.
* The applications collection is an association list `List (String x AppRecord)`;
  `runTransaction` bodies are pure functions of that list (the transaction
  is atomic, so a transaction is one step of the model).
* Binary buffers are modelled by their byte strings; the PDF extractor,
  the PDF repair tool and the regex engine are external oracles passed in
  as parameters (`ParsingEnv`, `RegexEngine`), every other line of the
  two routes is translated directly.
-/

abbrev Millis := Nat

/-- `LEASE_MS = 5 * 60 * 1000` from both worker routes. -/
def LEASE_MS : Millis := 5 * 60 * 1000

/-- The `workerLease` field: `{ holder, stage, claimedAt, expiresAt }`. -/
structure WorkerLease where
  holder : String
  stage : String
  claimedAt : Millis
  expiresAt : Millis
deriving Repr, DecidableEq

/-- One matched-rule item `{ruleId, title, severity, evidence, source}` as
built in the evaluation loop of the analyzing route. -/
structure MatchItem where
  ruleId : String
  title : String
  severity : String
  evidence : String
  source : String
deriving Repr, DecidableEq

/-- A rule of a rule pack or overlay (type `Rule` of the analyzing route). -/
structure Rule where
  ruleId : String := ""
  title : String := ""
  severity : Option String := none
  pattern : String := ""
  type : Option String := none
  source : Option String := none
deriving Repr, DecidableEq

/-- The `decisionArtifactPublic` object written by the analyzing route. -/
structure ArtifactPublic where
  appId : String
  rulePackId : String
  companyProfileId : String
  programId : Option String
  programName : Option String
  overlayApplied : Bool
  overlayId : Option String
  overlayName : Option String
  overlayRuleCount : Nat
  decision : String
  summary : String
  matchedFindings : List MatchItem
  findings : List MatchItem
  conditions : List MatchItem
  evaluatedAt : String
deriving Repr, DecidableEq

/-- The `decisionArtifactRaw` object written by the analyzing route. -/
structure ArtifactRaw where
  appId : String
  rulePackId : String
  rulePackVersion : String
  companyProfileId : String
  programId : Option String
  programName : Option String
  overlayApplied : Bool
  overlayId : Option String
  overlayName : Option String
  overlayRuleCount : Nat
  decision : String
  summary : String
  matchedFindings : List MatchItem
  conditions : List MatchItem
  blockers : List MatchItem
  evaluatedAt : Millis
  notes : List String
deriving Repr, DecidableEq

/-- An application document with every field the two worker routes touch. -/
structure AppRecord where
  processingStage : String := ""
  updatedAt : Millis := 0
  workerLease : Option WorkerLease := none
  objectPath : String := ""
  companyProfileId : String := ""
  programId : String := ""
  programName : String := ""
  extractedTextCombined : String := ""
  extractedText : String := ""
  extractedTextLength : Option Nat := none
  extractor : Option String := none
  fallbackUsed : Option Bool := none
  parsingError : Option String := none
  parsingStartedAt : Option Millis := none
  parsingCompletedAt : Option Millis := none
  parsingFailedAt : Option Millis := none
  aiStartedAt : Option Millis := none
  aiCompletedAt : Option Millis := none
  decision : Option String := none
  lastError : Option String := none
  error : Option String := none
  decisionArtifactPublic : Option ArtifactPublic := none
  decisionArtifactRaw : Option ArtifactRaw := none
  leaseReleasedAt : Option Millis := none
  leaseReleaseReason : Option String := none
deriving Repr, DecidableEq

/-- The `applications` collection as an association list (document id, data). -/
abbrev Store := List (String × AppRecord)

/-- `snap.data() || {}` on a document reference: the first entry with the
given id, or the all-defaults record when absent. -/
def getApp (s : Store) (i : String) : AppRecord :=
  match s.find? (fun p => p.fst == i) with
  | some p => p.snd
  | none => {}

/-- `ref.set(..., { merge: true })`: apply a field-merge to the document
with the given id. -/
def setApp (s : Store) (i : String) (f : AppRecord → AppRecord) : Store :=
  s.map (fun p => if p.fst == i then (p.fst, f p.snd) else p)

/-- Whether a document id is present in the collection. -/
def containsKey (s : Store) (i : String) : Bool :=
  s.any (fun p => p.fst == i)

/-- `leaseActive`: `lease && lease.expiresAt.toMillis() && expiresAt > now`
(a missing `toMillis` reads as `0`, which can never exceed `now`). -/
def leaseActiveAt (l : Option WorkerLease) (now : Millis) : Bool :=
  match l with
  | none => false
  | some lease => now < lease.expiresAt

/-- Fold step choosing the older-updated of two documents (keeping the
earlier-listed on ties, as the ordered query does). -/
def pickOlder (acc : Option (String × AppRecord)) (p : String × AppRecord) :
    Option (String × AppRecord) :=
  match acc with
  | none => some p
  | some q => if p.snd.updatedAt < q.snd.updatedAt then some p else some q

/-- The Firestore query
`where("processingStage","==",f).orderBy("updatedAt","asc").limit(1)`:
the first-listed document of minimal `updatedAt` among those in stage `f`. -/
def selectOldest (stageFilter : String) (s : Store) : Option (String × AppRecord) :=
  (s.filter (fun p => p.snd.processingStage == stageFilter)).foldl pickOlder none

/-- Which `...StartedAt` timestamp the claim transaction writes:
`parsingStartedAt` in the parsing route, `aiStartedAt` in the analyzing one. -/
inductive StartMark where
  | parsing
  | analyzing
deriving Repr, DecidableEq

def applyStartMark : StartMark → Millis → AppRecord → AppRecord
  | .parsing, now, a => { a with parsingStartedAt := some now }
  | .analyzing, now, a => { a with aiStartedAt := some now }

/-- The merge written by a successful claim transaction: the fresh lease,
the stage's `...StartedAt` timestamp, and `updatedAt`. -/
def claimWrite (stageFilter : String) (mark : StartMark) (leaseId : String)
    (now : Millis) (a : AppRecord) : AppRecord :=
  applyStartMark mark now
    { a with
      workerLease := some
        { holder := leaseId, stage := stageFilter, claimedAt := now,
          expiresAt := now + LEASE_MS },
      updatedAt := now }

/-- What a successful claim transaction returns:
`{ leaseId, ref, appId: ref.id, app }` (`app` is the in-transaction fresh read). -/
structure ClaimedJob where
  leaseId : String
  appId : String
  app : AppRecord
deriving Repr, DecidableEq

/-- The claim transaction shared by `claimOneParsingJob` and
`claimOneAnalyzingJob`: query the oldest-updated document in the stage,
fresh-read it, re-check the stage, give up if its lease is active,
otherwise write the lease.  Returns the claim (or `none`) and the
post-transaction collection. -/
def claimOneJob (stageFilter : String) (mark : StartMark) (leaseId : String)
    (now : Millis) (s : Store) : Option ClaimedJob × Store :=
  match selectOldest stageFilter s with
  | none => (none, s)
  | some (i, _) =>
    let fresh := getApp s i
    if fresh.processingStage != stageFilter then (none, s)
    else if leaseActiveAt fresh.workerLease now then (none, s)
    else
      (some { leaseId := leaseId, appId := i, app := fresh },
       setApp s i (claimWrite stageFilter mark leaseId now))

def claimOneParsingJob (leaseId : String) (now : Millis) (s : Store) :
    Option ClaimedJob × Store :=
  claimOneJob "parsing" .parsing leaseId now s

def claimOneAnalyzingJob (leaseId : String) (now : Millis) (s : Store) :
    Option ClaimedJob × Store :=
  claimOneJob "analyzing" .analyzing leaseId now s

/-- `releaseLease(ref, admin, reason)` from either route. -/
def releaseLease (s : Store) (i : String) (now : Millis) (reason : String) : Store :=
  setApp s i (fun a =>
    { a with workerLease := none, leaseReleasedAt := some now,
             leaseReleaseReason := some reason, updatedAt := now })

/-- The JSON body + HTTP status of a worker `POST` response, with every
field any branch of the two routes puts in its body. -/
structure Http where
  status : Nat
  ok : Bool
  processed : Nat
  appId : Option String := none
  decision : Option String := none
  errMsg : Option String := none
  msg : Option String := none
  extractor : Option String := none
  extractedTextLength : Option Nat := none
  fallbackUsed : Option Bool := none
  matched : Option Nat := none
  conditionsMatched : Option Nat := none
deriving Repr, DecidableEq

/-! String primitives, implemented structurally over `String.data` so that
every concrete run of the model reduces inside the kernel.  They model
the JS operations the routes use (`startsWith`, `includes`, `trim`,
`toLowerCase`, `slice`, `replace(/\r\n/g, "\n")`) on ASCII data. -/

/-- Whether the first list starts with the second. -/
def startsWithData : List Char → List Char → Bool
  | _, [] => true
  | [], _ :: _ => false
  | a :: as, b :: bs => a == b && startsWithData as bs

/-- Whether `pat` occurs as a contiguous run. -/
def containsSubData (pat : List Char) : List Char → Bool
  | [] => startsWithData [] pat
  | ch :: rest => startsWithData (ch :: rest) pat || containsSubData pat rest

/-- Substring test (models JS `String.prototype.includes`). -/
def containsSub (s pat : String) : Bool :=
  containsSubData pat.data s.data

/-- One pass of `replace(/\r\n/g, "\n")`. -/
def replaceCRLFData : List Char → List Char
  | [] => []
  | '\r' :: '\n' :: rest => '\n' :: replaceCRLFData rest
  | ch :: rest => ch :: replaceCRLFData rest

/-- Strip leading and trailing whitespace. -/
def trimData (l : List Char) : List Char :=
  ((l.dropWhile Char.isWhitespace).reverse.dropWhile Char.isWhitespace).reverse

/-- JS `trim()`. -/
def jsTrim (s : String) : String := ⟨trimData s.data⟩

/-- JS `slice(0, n)` on ASCII data. -/
def takeStr (s : String) (n : Nat) : String := ⟨s.data.take n⟩

/-- JS `toLowerCase()` on ASCII data. -/
def lowerStr (s : String) : String := ⟨s.data.map Char.toLower⟩

/-- `looksLikeHtml` from the parsing route: the first 200 bytes, decoded,
left-trimmed and lowercased, start with a markup-looking prefix. -/
def looksLikeHtml (buf : String) : Bool :=
  let head := lowerStr ⟨(buf.data.take 200).dropWhile Char.isWhitespace⟩
  startsWithData head.data "<!doctype".data
    || startsWithData head.data "<html".data
    || startsWithData head.data "<".data

/-- `isLikelyXrefError` from the parsing route. -/
def isLikelyXrefError (msg : String) : Bool :=
  let m := lowerStr msg
  containsSub m "xref" || containsSub m "bad xref" || containsSub m "failed to parse"

/-- External effects of the parsing worker.  `download k` is the outcome of
the `k`-th physical `file.download()` call of the invocation (an `error`
models a throw); `parse` is `parsePdfToText`, `repair` is
`repairPdfBuffer`, each either throwing (`error` message) or returning. -/
structure ParsingEnv where
  download : Nat → Except String String
  parse : String → Except String String
  repair : String → Except String String

/-- One attempt of the loop inside `downloadPdfWithRetry`: download, then
validate the size and the HTML sniff, throwing the route's error strings. -/
def dlAttempt (env : ParsingEnv) (k : Nat) : Except String String :=
  match env.download k with
  | .error e => .error e
  | .ok buf =>
    if buf.length < 50 then
      .error ("Downloaded file too small (" ++ toString buf.length ++ " bytes).")
    else if looksLikeHtml buf then
      .error ("Downloaded content looks like HTML, not a PDF. First bytes: "
        ++ takeStr buf 60)
    else .ok buf

/-- `downloadPdfWithRetry`: two attempts; on success, the bytes and the
attempt number (1 or 2); on double failure, the second error (`lastErr`).
Also returns the next physical-download counter. -/
def dlRetry (env : ParsingEnv) (k : Nat) : Except String (String × Nat) × Nat :=
  match dlAttempt env k with
  | .ok buf => (.ok (buf, 1), k + 1)
  | .error _ =>
    match dlAttempt env (k + 1) with
    | .ok buf => (.ok (buf, 2), k + 2)
    | .error e2 => (.error e2, k + 2)

/-- Text normalization of the success paths:
`.replace(/\r\n/g, "\n").trim()`. -/
def normalizeText (s : String) : String :=
  ⟨trimData (replaceCRLFData s.data)⟩

/-- The download-and-parse portion of the parsing route's `try` block:
download with retry, parse; if parsing the bytes of a first-attempt
download throws, re-download once and re-parse. -/
def tryDownloadParse (env : ParsingEnv) : Except String String × Nat :=
  match dlRetry env 0 with
  | (.error e, k) => (.error e, k)
  | (.ok (buf, attempt), k) =>
    match env.parse buf with
    | .ok t => (.ok t, k)
    | .error parseErr =>
      if attempt == 1 then
        match dlRetry env k with
        | (.error e, k2) => (.error e, k2)
        | (.ok (buf2, _), k2) =>
          match env.parse buf2 with
          | .ok t => (.ok t, k2)
          | .error e => (.error e, k2)
      else (.error parseErr, k)

/-- The whole primary `try` block: download-and-parse, normalize, and throw
when the normalized text is empty.  An `error` is the `e1` that reaches the
first `catch`. -/
def tryPrimary (env : ParsingEnv) : Except String String × Nat :=
  match tryDownloadParse env with
  | (.error e, k) => (.error e, k)
  | (.ok t, k) =>
    let t' := normalizeText t
    if t' == "" then (.error "PDF parsed but extractedText was empty.", k)
    else (.ok t', k)

/-- The repair-fallback `try` block (`catch (e1)`): rethrow `e1` unless its
signature looks like a bad-xref error, otherwise re-download, repair,
re-parse and normalize.  An `error` is the `e2` of the terminal catch. -/
def fallbackRepair (env : ParsingEnv) (e1 : String) (k : Nat) :
    Except String String × Nat :=
  if !isLikelyXrefError e1 then (.error e1, k)
  else
    match dlRetry env k with
    | (.error e, k2) => (.error e, k2)
    | (.ok (raw, _), k2) =>
      match env.repair raw with
      | .error e => (.error e, k2)
      | .ok repaired =>
        match env.parse repaired with
        | .error e => (.error e, k2)
        | .ok t =>
          let t' := normalizeText t
          if t' == "" then (.error "Repair succeeded but extractedText was empty.", k2)
          else (.ok t', k2)

/-- Net outcome of the extraction portion of one parsing-worker invocation:
either normalized text with the `extractor` tag and `fallbackUsed` flag of
the path that produced it, or the terminal error `e2`. -/
inductive ExtractOutcome where
  | success (text : String) (extractor : String) (fallbackUsed : Bool)
  | failure (e2 : String)
deriving Repr, DecidableEq

def extractOutcome (env : ParsingEnv) : ExtractOutcome :=
  match tryPrimary env with
  | (.ok t, _) => .success t "pdf-parse" false
  | (.error e1, k) =>
    match fallbackRepair env e1 k with
    | (.ok t, _) => .success t "pdf-parse+pdf-lib-repair" true
    | (.error e2, _) => .failure e2

/-- The merge written by the parsing worker on a success path. -/
def parsingSuccessWrite (t : String) (ex : String) (fb : Bool) (now : Millis)
    (a : AppRecord) : AppRecord :=
  { a with
    extractedTextCombined := t,
    extractedTextLength := some t.length,
    extractor := some ex,
    fallbackUsed := some fb,
    processingStage := "analyzing",
    parsingCompletedAt := some now,
    parsingError := none,
    updatedAt := now }

/-- The merge written by the parsing worker on a terminal failure. -/
def parsingFailWrite (e2 : String) (now : Millis) (a : AppRecord) : AppRecord :=
  { a with
    processingStage := "parsing_failed",
    parsingError := some e2,
    parsingFailedAt := some now,
    updatedAt := now }

/-- The parsing worker's handling of a claimed job, from the
authoritative re-read on: the `objectPath` guard, the stage-drift guard,
then extraction and the success/terminal-failure writes.  `s2` is the
collection at re-read time. -/
def parseClaimed (env : ParsingEnv) (now : Millis) (c : ClaimedJob)
    (s2 : Store) : Http × Store :=
  let app := getApp s2 c.appId
  if app.objectPath == "" then
        let s3 := setApp s2 c.appId (fun a =>
          { a with processingStage := "parsing_failed",
                   parsingError := some "Missing required field: objectPath",
                   parsingFailedAt := some now, updatedAt := now })
        let s4 := releaseLease s3 c.appId now "failed"
        ({ status := 500, ok := false, processed := 0, appId := some c.appId,
           errMsg := some "Missing required field: objectPath" }, s4)
      else if app.processingStage != "parsing" then
        let s3 := releaseLease s2 c.appId now "skipped"
        ({ status := 200, ok := true, processed := 0, appId := some c.appId,
           msg := some "Job no longer in parsing; skipped." }, s3)
      else
        match extractOutcome env with
        | .success t ex fb =>
          let s3 := setApp s2 c.appId (parsingSuccessWrite t ex fb now)
          let s4 := releaseLease s3 c.appId now "success"
          ({ status := 200, ok := true, processed := 1, appId := some c.appId,
             extractor := some ex, extractedTextLength := some t.length,
             fallbackUsed := some fb }, s4)
        | .failure e2 =>
          let s3 := setApp s2 c.appId (parsingFailWrite e2 now)
          let s4 := releaseLease s3 c.appId now "failed"
          ({ status := 500, ok := false, processed := 0, appId := some c.appId,
             errMsg := some e2 }, s4)

/-- `POST` of `src/app/api/worker/files/process/route.ts` (the Parsing
Worker).  `expected`/`got` are the server's `WORKER_SECRET` (empty means
unset) and the request's `x-worker-secret` header; `interfere` is what
other agents do to the collection between the claim transaction and the
authoritative re-read (`fun s => s` for an undisturbed run). -/
def parsingPOST (env : ParsingEnv) (expected got : String)
    (interfere : Store → Store) (leaseId : String) (now : Millis) (s : Store) :
    Http × Store :=
  if expected != "" && got != expected then
    ({ status := 401, ok := false, processed := 0,
       errMsg := some "401: Unauthorized (bad x-worker-secret)" }, s)
  else
    match claimOneParsingJob leaseId now s with
    | (none, s1) =>
      ({ status := 200, ok := true, processed := 0,
         msg := some "No claimable parsing jobs." }, s1)
    | (some c, s1) => parseClaimed env now c (interfere s1)

/-- A company profile document; `rulePackId` read via `String(x || "")`. -/
structure CompanyProfile where
  rulePackId : String := ""
deriving Repr, DecidableEq

/-- A rule pack document. -/
structure RulePack where
  rules : List Rule := []
  rulePackVersion : String := ""
deriving Repr, DecidableEq

/-- A program document; `activeOverlayId = ""` models a falsy field. -/
structure Program where
  name : String := ""
  activeOverlayId : String := ""
deriving Repr, DecidableEq

/-- An overlay document. -/
structure Overlay where
  name : String := ""
  rules : List Rule := []
deriving Repr, DecidableEq

/-- The non-applications collections the analyzing route reads, as partial
maps from document id. -/
structure Db where
  companyProfiles : String → Option CompanyProfile
  rulePacks : String → Option RulePack
  programs : String → Option Program
  overlays : String → Option Overlay

/-- The JS regex engine as an oracle.  `compile p` is `safeRegex(p)`:
`none` when `new RegExp(p, "i")` throws, otherwise the case-insensitive
`re.test` predicate; `firstMatch p text` is `text.match(re)?.[0]`. -/
structure RegexEngine where
  compile : String → Option (String → Bool)
  firstMatch : String → String → Option String

/-- `firstMatchEvidence(re, text)` of the analyzing route. -/
def firstMatchEvidence (eng : RegexEngine) (pat text : String) : String :=
  match eng.firstMatch pat text with
  | none => "No match"
  | some m0 =>
    let s := jsTrim m0
    if s == "" then "Matched pattern"
    else "Matched: \"" ++ takeStr s 160 ++ "\""

/-- The item `{ruleId, title, severity, evidence, source}` recorded for a
matching rule, with the route's severity and source defaults. -/
def matchItemOf (eng : RegexEngine) (text : String) (r : Rule) : MatchItem :=
  let ty := r.type.getD "finding"
  { ruleId := r.ruleId, title := r.title,
    severity := r.severity.getD (if ty == "blocker" then "error" else "warn"),
    evidence := firstMatchEvidence eng (jsTrim r.pattern) text,
    source := r.source.getD "base" }

/-- Whether a rule fires in the evaluation loop: non-empty trimmed pattern,
compilable, and `re.test(text)`. -/
def ruleMatches (eng : RegexEngine) (text : String) (r : Rule) : Bool :=
  let pat := jsTrim r.pattern
  pat != "" &&
    (match eng.compile pat with
     | none => false
     | some test => test text)

/-- The three result buckets of the evaluation loop. -/
structure EvalBuckets where
  matchedFindings : List MatchItem := []
  conditions : List MatchItem := []
  blockers : List MatchItem := []
deriving Repr, DecidableEq

/-- One iteration of `for (const r of rules)`: skip empty or invalid
patterns, and on a match push the item into the bucket of the rule's type
(default type `finding`). -/
def evalRule (eng : RegexEngine) (text : String) (b : EvalBuckets) (r : Rule) :
    EvalBuckets :=
  let ty := r.type.getD "finding"
  let pat := jsTrim r.pattern
  if pat == "" then b
  else
    match eng.compile pat with
    | none => b
    | some test =>
      if test text then
        let item := matchItemOf eng text r
        if ty == "condition" then { b with conditions := b.conditions ++ [item] }
        else if ty == "blocker" then { b with blockers := b.blockers ++ [item] }
        else { b with matchedFindings := b.matchedFindings ++ [item] }
      else b

def evalRules (eng : RegexEngine) (rules : List Rule) (text : String) :
    EvalBuckets :=
  rules.foldl (evalRule eng text) {}

/-- The decision computation: `fail` on any blocker, else `conditional` on
any condition, else `pass`. -/
def decisionOf (b : EvalBuckets) : String :=
  if b.blockers.length != 0 then "fail"
  else if b.conditions.length != 0 then "conditional"
  else "pass"

/-- The abstracted ISO-8601 rendering of `now.toDate().toISOString()`. -/
def toIso (ms : Millis) : String := toString ms

/-- The merge written by every fail-closed early exit of the analyzing
route: complete the job as `conditional` with the error recorded twice. -/
def failClose (s : Store) (i : String) (now : Millis) (msg : String) : Store :=
  setApp s i (fun a =>
    { a with processingStage := "ai_completed", decision := some "conditional",
             lastError := some msg, error := some msg,
             aiCompletedAt := some now, updatedAt := now })

/-- The `200 / ok / processed: 1` response body of a fail-closed early exit. -/
def failCloseResp (appId : String) (m : String) : Http :=
  { status := 200, ok := true, processed := 1, appId := some appId,
    decision := some "conditional", matched := some 0,
    conditionsMatched := some 0, msg := some m }

/-- The effective text: `String(app?.extractedTextCombined || app?.extractedText || "")`. -/
def textOf (a : AppRecord) : String :=
  if a.extractedTextCombined != "" then a.extractedTextCombined
  else a.extractedText

/-- Overlay resolution (step 5 of the analyzing route): from the job's
`programId` to the program's `activeOverlayId` to the overlay's rules
tagged `source: "overlay"`.  Returns
`(programName, overlayApplied, overlayRuleCount, overlayId, overlayName, overlayRules)`. -/
def resolveOverlay (db : Db) (app : AppRecord) :
    Option String × Bool × Nat × Option String × Option String × List Rule :=
  let pn0 : Option String := if app.programName != "" then some app.programName else none
  if app.programId == "" then (pn0, false, 0, none, none, [])
  else
    match db.programs app.programId with
    | none => (pn0, false, 0, none, none, [])
    | some prog =>
      let pn1 := match pn0 with
        | some n => some n
        | none => if prog.name != "" then some prog.name else none
      if prog.activeOverlayId == "" then (pn1, false, 0, none, none, [])
      else
        match db.overlays prog.activeOverlayId with
        | none => (pn1, false, 0, none, none, [])
        | some ov =>
          (pn1, true, ov.rules.length, some prog.activeOverlayId,
           some (if ov.name != "" then ov.name else prog.activeOverlayId),
           ov.rules.map (fun r => { r with source := some "overlay" }))

/-- The analyzing route's handling of a claimed job, from the
authoritative re-read on: the stage-drift guard, the five fail-closed
required-input guards in source order, then overlay resolution, rule
merge, evaluation, decision, artifacts and the success write.  `s2` is
the collection at re-read time. -/
def analyzeClaimed (eng : RegexEngine) (db : Db) (now : Millis)
    (c : ClaimedJob) (s2 : Store) : Http × Store :=
  let app := getApp s2 c.appId
  if app.processingStage != "analyzing" then
        ({ status := 200, ok := true, processed := 0, appId := some c.appId,
           msg := some "Job no longer in analyzing; skipped." },
         releaseLease s2 c.appId now "skipped")
      else
        let cpid := app.companyProfileId
        let text := textOf app
        if cpid == "" then
          let s4 := releaseLease
            (failClose s2 c.appId now "App missing companyProfileId (cannot choose rulepack)")
            c.appId now "failed"
          (failCloseResp c.appId "Missing companyProfileId; completed as conditional.", s4)
        else if text == "" || jsTrim text == "" then
          let s4 := releaseLease
            (failClose s2 c.appId now "Missing extractedTextCombined (cannot evaluate rules)")
            c.appId now "failed"
          (failCloseResp c.appId "Missing extracted text; completed as conditional.", s4)
        else
          match db.companyProfiles cpid with
          | none =>
            let s4 := releaseLease
              (failClose s2 c.appId now ("Company profile not found: " ++ cpid))
              c.appId now "failed"
            (failCloseResp c.appId "Company profile missing; completed as conditional.", s4)
          | some company =>
            if company.rulePackId == "" then
              let s4 := releaseLease
                (failClose s2 c.appId now
                  ("companyProfiles/" ++ cpid ++ " missing rulePackId"))
                c.appId now "failed"
              (failCloseResp c.appId "Missing rulePackId; completed as conditional.", s4)
            else
              match db.rulePacks company.rulePackId with
              | none =>
                let s4 := releaseLease
                  (failClose s2 c.appId now
                    ("Rule pack not found: " ++ company.rulePackId))
                  c.appId now "failed"
                (failCloseResp c.appId "Rule pack missing; completed as conditional.", s4)
              | some pack =>
                let baseRules := pack.rules.map (fun r => { r with source := some "base" })
                let rulePackVersion :=
                  if pack.rulePackVersion == "" then "1" else pack.rulePackVersion
                let ov := resolveOverlay db app
                let rules := baseRules ++ ov.2.2.2.2.2
                let b := evalRules eng rules text
                let decision := decisionOf b
                let summary := "Rules evaluated: " ++ toString rules.length
                  ++ ". Findings matched: " ++ toString b.matchedFindings.length
                  ++ ". Conditions matched: " ++ toString b.conditions.length
                  ++ ". Decision: " ++ decision ++ "."
                let programId : Option String :=
                  if app.programId != "" then some app.programId else none
                let pub : ArtifactPublic :=
                  { appId := c.appId, rulePackId := company.rulePackId,
                    companyProfileId := cpid, programId := programId,
                    programName := ov.1, overlayApplied := ov.2.1,
                    overlayId := ov.2.2.2.1, overlayName := ov.2.2.2.2.1,
                    overlayRuleCount := ov.2.2.1, decision := decision,
                    summary := summary, matchedFindings := b.matchedFindings,
                    findings := b.matchedFindings, conditions := b.conditions,
                    evaluatedAt := toIso now }
                let raw : ArtifactRaw :=
                  { appId := c.appId, rulePackId := company.rulePackId,
                    rulePackVersion := rulePackVersion, companyProfileId := cpid,
                    programId := programId, programName := ov.1,
                    overlayApplied := ov.2.1, overlayId := ov.2.2.2.1,
                    overlayName := ov.2.2.2.2.1, overlayRuleCount := ov.2.2.1,
                    decision := decision, summary := summary,
                    matchedFindings := b.matchedFindings,
                    conditions := b.conditions, blockers := b.blockers,
                    evaluatedAt := now, notes := [] }
                let s3 := setApp s2 c.appId (fun a =>
                  { a with processingStage := "ai_completed",
                           decision := some decision,
                           decisionArtifactPublic := some pub,
                           decisionArtifactRaw := some raw,
                           aiCompletedAt := some now, updatedAt := now,
                           lastError := none, error := none })
                let s4 := releaseLease s3 c.appId now "success"
                ({ status := 200, ok := true, processed := 1,
                   appId := some c.appId, decision := some decision,
                   matched := some b.matchedFindings.length,
                   conditionsMatched := some b.conditions.length }, s4)

/-- `POST` of the analyzing route (the Rule Evaluation Engine).
Parameters as in `parsingPOST`; note this route's `assertWorkerAuth`
throws a `500:`-message when the server secret is unset. -/
def analyzingPOST (eng : RegexEngine) (db : Db) (expected got : String)
    (interfere : Store → Store) (leaseId : String) (now : Millis) (s : Store) :
    Http × Store :=
  if expected == "" then
    ({ status := 500, ok := false, processed := 0,
       errMsg := some "500: WORKER_SECRET missing on server" }, s)
  else if got == "" || got != expected then
    ({ status := 401, ok := false, processed := 0,
       errMsg := some "401: Unauthorized (bad x-worker-secret)" }, s)
  else
    match claimOneAnalyzingJob leaseId now s with
    | (none, s1) =>
      ({ status := 200, ok := true, processed := 0,
         msg := some "No claimable analyzing jobs." }, s1)
    | (some c, s1) => analyzeClaimed eng db now c (interfere s1)

/-- A rule that fires and lands in the `blockers` bucket. -/
def isBlockerMatch (eng : RegexEngine) (text : String) (r : Rule) : Bool :=
  ruleMatches eng text r && (r.type.getD "finding" == "blocker")

/-- A rule that fires and lands in the `conditions` bucket. -/
def isConditionMatch (eng : RegexEngine) (text : String) (r : Rule) : Bool :=
  ruleMatches eng text r && (r.type.getD "finding" == "condition")

/-- An oldest-updated `parsing` job holding a live lease. -/
def c3LeasedOldest : AppRecord :=
  { processingStage := "parsing", updatedAt := 0,
    workerLease := some
      { holder := "w0", stage := "parsing", claimedAt := 0, expiresAt := 1000 } }

/-- A newer `parsing` job with no lease (eligible in the claim's sense). -/
def c3EligibleNewer : AppRecord :=
  { processingStage := "parsing", updatedAt := 5 }

def c3Store : Store := [("a", c3LeasedOldest), ("b", c3EligibleNewer)]

/-- The property-test harness of the spec's mutual-exclusion property:
`N` racing claim attempts serialize through the atomic claim transaction;
run them in order, threading the store. -/
def runClaims (f : String) (mark : StartMark) (ids : List String) (now : Millis)
    (s : Store) : List (Option ClaimedJob) × Store :=
  match ids with
  | [] => ([], s)
  | id :: rest =>
    let r1 := claimOneJob f mark id now s
    let rr := runClaims f mark rest now r1.2
    (r1.1 :: rr.1, rr.2)

/-- What every fail-closed early exit of the analyzing route promises for
the response and for the job record `i`: HTTP-level success with
`processed = 1` and business-level `conditional`, the stage advanced to
`ai_completed`, the error recorded on both error fields, and the lease
released with reason `failed`. -/
def failClosedOutcome (res : Http × Store) (i : String) (m : String) : Prop :=
  res.1.status = 200 ∧ res.1.ok = true ∧ res.1.processed = 1 ∧
  res.1.decision = some "conditional" ∧
  (getApp res.2 i).processingStage = "ai_completed" ∧
  (getApp res.2 i).decision = some "conditional" ∧
  (getApp res.2 i).error = some m ∧
  (getApp res.2 i).lastError = some m ∧
  (getApp res.2 i).leaseReleaseReason = some "failed" ∧
  (getApp res.2 i).workerLease = none

/-! Concrete oracle instances and stores used to witness the theorems at
evaluable inputs. -/

/-- A regex engine whose every pattern fails to compile. -/
def trivialEng : RegexEngine :=
  { compile := fun _ => none, firstMatch := fun _ _ => none }

/-- A database with no documents at all. -/
def emptyDb : Db :=
  { companyProfiles := fun _ => none, rulePacks := fun _ => none,
    programs := fun _ => none, overlays := fun _ => none }

/-- An analyzing-stage job that is missing its `companyProfileId`. -/
def c2Job : AppRecord :=
  { processingStage := "analyzing", updatedAt := 0, companyProfileId := "",
    extractedTextCombined := "doc" }

def c2Store : Store := [("a2", c2Job)]

/-- A parsing environment whose downloads always fail. -/
def failEnv : ParsingEnv :=
  { download := fun _ => .error "network down",
    parse := fun _ => .error "network down",
    repair := fun _ => .error "network down" }

/-- Plausible PDF bytes: big enough and not markup-looking. -/
def pdfBytes : String :=
  "%PDF-1.4 0123456789012345678901234567890123456789012345678901234567890"

/-- A parsing environment where the primary path succeeds with CRLF text. -/
def plainEnv : ParsingEnv :=
  { download := fun _ => .ok pdfBytes,
    parse := fun _ => .ok "Line1\r\nLine2  ",
    repair := fun _ => .error "unused" }

/-- A parsing environment whose primary extraction throws a bad-xref error
but whose repaired bytes parse. -/
def xrefEnv : ParsingEnv :=
  { download := fun _ => .ok pdfBytes,
    parse := fun b =>
      if b == "REPAIRED" then .ok "Fixed text"
      else .error "failed to parse: bad xref entry",
    repair := fun _ => .ok "REPAIRED" }

/-- A parsing-stage job with no `objectPath`. -/
def c4Job : AppRecord :=
  { processingStage := "parsing", updatedAt := 0, objectPath := "" }

def c4Store : Store := [("a4", c4Job)]

/-- An external agent advancing the job to `analyzing` between the claim
transaction and the worker's re-read. -/
def c4Interfere (s : Store) : Store :=
  setApp s "a4" (fun a => { a with processingStage := "analyzing" })

/-- A well-formed parsing-stage job. -/
def c9Job : AppRecord :=
  { processingStage := "parsing", updatedAt := 0,
    objectPath := "applications/x/doc.pdf" }

def c9Store : Store := [("a9", c9Job)]

/-- A parsing-stage job used to witness the parsing worker's success path. -/
def c7Job : AppRecord :=
  { processingStage := "parsing", updatedAt := 0,
    objectPath := "applications/y/doc.pdf" }

def c7Store : Store := [("a7", c7Job)]

/-- An external agent advancing the well-formed parsing job `a9` to
`analyzing` between claim and re-read. -/
def c4ParsInterfere (s : Store) : Store :=
  setApp s "a9" (fun a => { a with processingStage := "analyzing" })

/-- A concrete regex engine for witnesses: a pattern matches a text when
it occurs as a substring (a valid regex semantics for literal patterns). -/
def demoEng : RegexEngine :=
  { compile := fun p => some (fun t => containsSub t p),
    firstMatch := fun _ _ => none }

/-- A blocker rule matching the literal `risk`. -/
def demoBlockerRule : Rule :=
  { ruleId := "b1", title := "No risk wording", pattern := "risk",
    type := some "blocker" }

/-- A finding rule matching the literal `here`. -/
def demoFindingRule : Rule :=
  { ruleId := "f1", title := "Mentions here", pattern := "here",
    type := some "finding" }

/-! ## Store lemmas -/

theorem getApp_cons (a : String) (b : AppRecord) (t : Store) (i : String) :
    getApp ((a, b) :: t) i = if a == i then b else getApp t i := by
  by_cases h : (a == i) = true
  · simp [getApp, List.find?_cons, h]
  · simp only [Bool.not_eq_true] at h
    simp [getApp, List.find?_cons, h]

theorem setApp_cons (a : String) (b : AppRecord) (t : Store) (i : String)
    (f : AppRecord → AppRecord) :
    setApp ((a, b) :: t) i f
      = (if a == i then (a, f b) else (a, b)) :: setApp t i f := rfl

theorem containsKey_cons (a : String) (b : AppRecord) (t : Store) (i : String) :
    containsKey ((a, b) :: t) i = ((a == i) || containsKey t i) := by
  simp [containsKey]

theorem getApp_setApp_self (s : Store) (i : String) (f : AppRecord → AppRecord)
    (h : containsKey s i = true) : getApp (setApp s i f) i = f (getApp s i) := by
  induction s with
  | nil => simp [containsKey] at h
  | cons p t ih =>
    rcases p with ⟨a, b⟩
    by_cases hp : (a == i) = true
    · rw [setApp_cons, if_pos hp, getApp_cons, getApp_cons, if_pos hp, if_pos hp]
    · have hp' : (a == i) = false := by simpa using hp
      have ht : containsKey t i = true := by
        rw [containsKey_cons, hp'] at h
        simpa using h
      rw [setApp_cons, if_neg (by simp [hp']), getApp_cons, getApp_cons,
        if_neg (by simp [hp']), if_neg (by simp [hp'])]
      exact ih ht

theorem containsKey_setApp (s : Store) (i j : String) (f : AppRecord → AppRecord) :
    containsKey (setApp s i f) j = containsKey s j := by
  induction s with
  | nil => rfl
  | cons p t ih =>
    rcases p with ⟨a, b⟩
    by_cases hp : (a == i) = true
    · rw [setApp_cons, if_pos hp, containsKey_cons, containsKey_cons, ih]
    · rw [setApp_cons, if_neg (by simpa using hp), containsKey_cons,
        containsKey_cons, ih]

/-! ## Query (`selectOldest`) lemmas -/

theorem foldl_pickOlder_isSome (l : List (String × AppRecord))
    (q : String × AppRecord) : (l.foldl pickOlder (some q)).isSome = true := by
  induction l generalizing q with
  | nil => rfl
  | cons p t ih =>
    simp only [List.foldl_cons, pickOlder]
    split
    · exact ih p
    · exact ih q

theorem foldl_pickOlder_mem (l : List (String × AppRecord)) :
    ∀ (acc : Option (String × AppRecord)) (res : String × AppRecord),
      l.foldl pickOlder acc = some res → acc = some res ∨ res ∈ l := by
  induction l with
  | nil => intro acc res h; exact Or.inl h
  | cons p t ih =>
    intro acc res h
    simp only [List.foldl_cons] at h
    rcases ih (pickOlder acc p) res h with h1 | h1
    · cases acc with
      | none =>
        simp only [pickOlder] at h1
        refine Or.inr ?_
        rw [← Option.some.inj h1]
        exact List.mem_cons_self p t
      | some q =>
        simp only [pickOlder] at h1
        by_cases hlt : p.snd.updatedAt < q.snd.updatedAt
        · rw [if_pos hlt] at h1
          refine Or.inr ?_
          rw [← Option.some.inj h1]
          exact List.mem_cons_self p t
        · rw [if_neg hlt] at h1
          exact Or.inl h1
    · exact Or.inr (List.mem_cons_of_mem p h1)

theorem foldl_pickOlder_min (l : List (String × AppRecord)) :
    ∀ (acc : Option (String × AppRecord)) (res : String × AppRecord),
      l.foldl pickOlder acc = some res →
      (∀ p ∈ l, res.snd.updatedAt ≤ p.snd.updatedAt) ∧
        (∀ q, acc = some q → res.snd.updatedAt ≤ q.snd.updatedAt) := by
  induction l with
  | nil =>
    intro acc res h
    refine ⟨by simp, ?_⟩
    intro q hq
    rw [hq] at h
    cases Option.some.inj h
    exact Nat.le_refl _
  | cons p t ih =>
    intro acc res h
    simp only [List.foldl_cons] at h
    have hstep := ih (pickOlder acc p) res h
    have hacc : ∀ x, pickOlder acc p = some x →
        res.snd.updatedAt ≤ x.snd.updatedAt := hstep.2
    have hhead : res.snd.updatedAt ≤ p.snd.updatedAt := by
      cases acc with
      | none => exact hacc p rfl
      | some q =>
        by_cases hlt : p.snd.updatedAt < q.snd.updatedAt
        · exact hacc p (by simp [pickOlder, hlt])
        · exact Nat.le_trans (hacc q (by simp [pickOlder, hlt]))
            (Nat.le_of_not_lt hlt)
    refine ⟨?_, ?_⟩
    · intro x hx
      rcases List.mem_cons.mp hx with hx | hx
      · rw [hx]; exact hhead
      · exact hstep.1 x hx
    · intro q hq
      subst hq
      by_cases hlt : p.snd.updatedAt < q.snd.updatedAt
      · exact Nat.le_trans (hacc p (by simp [pickOlder, hlt])) (Nat.le_of_lt hlt)
      · exact hacc q (by simp [pickOlder, hlt])

/-- A successful query result is an in-stage member of the collection with
minimal `updatedAt` among in-stage documents. -/
theorem selectOldest_some_spec (f : String) (s : Store) (i : String)
    (r : AppRecord) (h : selectOldest f s = some (i, r)) :
    (i, r) ∈ s ∧ r.processingStage = f ∧
      ∀ p ∈ s, p.snd.processingStage = f → r.updatedAt ≤ p.snd.updatedAt := by
  have hmem := foldl_pickOlder_mem _ _ _ h
  simp only [false_or] at hmem
  have hmem' : (i, r) ∈ s.filter (fun p => p.snd.processingStage == f) := by
    rcases hmem with h0 | h0
    · exact absurd h0 (by simp)
    · exact h0
  have hin := List.mem_filter.mp hmem'
  have hmin := (foldl_pickOlder_min _ _ _ h).1
  refine ⟨hin.1, by simpa using hin.2, ?_⟩
  intro p hp hpf
  exact hmin p (List.mem_filter.mpr ⟨hp, by simpa using hpf⟩)

/-- The query returns `none` exactly when no document is in the stage. -/
theorem selectOldest_none_iff (f : String) (s : Store) :
    selectOldest f s = none ↔ ∀ p ∈ s, p.snd.processingStage ≠ f := by
  unfold selectOldest
  constructor
  · intro h p hp hpf
    cases hfilter : s.filter (fun p => p.snd.processingStage == f) with
    | nil =>
      have : (p ∈ s.filter (fun p => p.snd.processingStage == f)) := by
        exact List.mem_filter.mpr ⟨hp, by simpa using hpf⟩
      rw [hfilter] at this
      simp at this
    | cons q t =>
      rw [hfilter] at h
      simp only [List.foldl_cons, pickOlder] at h
      have := foldl_pickOlder_isSome t q
      rw [h] at this
      simp at this
  · intro h
    have : s.filter (fun p => p.snd.processingStage == f) = [] := by
      rw [List.filter_eq_nil_iff]
      intro p hp
      simpa using h p hp
    rw [this]
    rfl

/-! ## Claim-transaction lemmas -/

/-- Characterization of a successful claim: the claimed document is the
query's pick, still in stage, with an inactive lease; the only write is the
lease merge on that document. -/
theorem claimOneJob_some_spec (f : String) (mark : StartMark) (leaseId : String)
    (now : Millis) (s : Store) (c : ClaimedJob) (s1 : Store)
    (h : claimOneJob f mark leaseId now s = (some c, s1)) :
    c.leaseId = leaseId ∧
    containsKey s c.appId = true ∧
    c.app = getApp s c.appId ∧
    c.app.processingStage = f ∧
    leaseActiveAt c.app.workerLease now = false ∧
    s1 = setApp s c.appId (claimWrite f mark leaseId now) := by
  unfold claimOneJob at h
  cases hsel : selectOldest f s with
  | none => rw [hsel] at h; exact absurd (congrArg Prod.fst h) (by simp)
  | some p =>
    rcases p with ⟨i, r⟩
    rw [hsel] at h
    simp only at h
    by_cases hstage : ((getApp s i).processingStage != f) = true
    · rw [if_pos hstage] at h
      exact absurd (congrArg Prod.fst h) (by simp)
    · rw [if_neg hstage] at h
      by_cases hlease : leaseActiveAt (getApp s i).workerLease now = true
      · rw [if_pos hlease] at h
        exact absurd (congrArg Prod.fst h) (by simp)
      · rw [if_neg hlease] at h
        have hc : c = { leaseId := leaseId, appId := i, app := getApp s i } := by
          have := congrArg Prod.fst h
          simpa using this.symm
        have hs1 : s1 = setApp s i (claimWrite f mark leaseId now) := by
          have := congrArg Prod.snd h
          simpa using this.symm
        have hmemK : containsKey s i = true := by
          have hmem := (selectOldest_some_spec f s i r hsel).1
          unfold containsKey
          rw [List.any_eq_true]
          exact ⟨(i, r), hmem, by simp⟩
        subst hc
        refine ⟨rfl, hmemK, rfl, ?_, ?_, hs1⟩
        · simpa using hstage
        · simpa using hlease

/-- When the claim transaction claims nothing it writes nothing. -/
theorem claimOneJob_none_spec (f : String) (mark : StartMark) (leaseId : String)
    (now : Millis) (s : Store)
    (h : (claimOneJob f mark leaseId now s).1 = none) :
    claimOneJob f mark leaseId now s = (none, s) := by
  unfold claimOneJob at h ⊢
  cases hsel : selectOldest f s with
  | none => rfl
  | some p =>
    rcases p with ⟨i, r⟩
    rw [hsel] at h
    dsimp only at h ⊢
    by_cases hstage : ((getApp s i).processingStage != f) = true
    · rw [if_pos hstage]
    · rw [if_neg hstage] at h ⊢
      by_cases hlease : leaseActiveAt (getApp s i).workerLease now = true
      · rw [if_pos hlease]
      · rw [if_neg hlease] at h
        simp at h

/-! ## Evaluation-loop lemmas -/


theorem evalRule_blockers (eng : RegexEngine) (text : String) (b : EvalBuckets)
    (r : Rule) :
    (evalRule eng text b r).blockers
      = b.blockers ++
        (if isBlockerMatch eng text r then [matchItemOf eng text r] else []) := by
  unfold evalRule isBlockerMatch ruleMatches
  by_cases hp : (jsTrim r.pattern == "") = true
  · have hp' := beq_iff_eq.mp hp
    simp [hp']
  · have hp' : jsTrim r.pattern ≠ "" := by simpa using hp
    cases hc : eng.compile (jsTrim r.pattern) with
    | none => simp [hp, hp', hc]
    | some test =>
      by_cases ht : test text = true
      · by_cases h2 : (r.type.getD "finding" == "blocker") = true
        · have h1 : (r.type.getD "finding" == "condition") = false := by
            have := beq_iff_eq.mp h2
            simp [this]
          simp [hp, hp', hc, ht, h1, h2]
        · by_cases h1 : (r.type.getD "finding" == "condition") = true
          · simp [hp, hp', hc, ht, h1, h2]
          · simp [hp, hp', hc, ht, h1, h2]
      · simp [hp, hp', hc, ht]

theorem evalRule_conditions (eng : RegexEngine) (text : String) (b : EvalBuckets)
    (r : Rule) :
    (evalRule eng text b r).conditions
      = b.conditions ++
        (if isConditionMatch eng text r then [matchItemOf eng text r] else []) := by
  unfold evalRule isConditionMatch ruleMatches
  by_cases hp : (jsTrim r.pattern == "") = true
  · have hp' := beq_iff_eq.mp hp
    simp [hp']
  · have hp' : jsTrim r.pattern ≠ "" := by simpa using hp
    cases hc : eng.compile (jsTrim r.pattern) with
    | none => simp [hp, hp', hc]
    | some test =>
      by_cases ht : test text = true
      · by_cases h1 : (r.type.getD "finding" == "condition") = true
        · have h2 : (r.type.getD "finding" == "blocker") = false := by
            have := beq_iff_eq.mp h1
            simp [this]
          simp [hp, hp', hc, ht, h1, h2]
        · by_cases h2 : (r.type.getD "finding" == "blocker") = true
          · simp [hp, hp', hc, ht, h1, h2]
          · simp [hp, hp', hc, ht, h1, h2]
      · simp [hp, hp', hc, ht]

theorem foldl_evalRule_blockers (eng : RegexEngine) (text : String)
    (rules : List Rule) :
    ∀ b : EvalBuckets,
      (rules.foldl (evalRule eng text) b).blockers
        = b.blockers ++
          (rules.filter (isBlockerMatch eng text)).map (matchItemOf eng text) := by
  induction rules with
  | nil => intro b; simp
  | cons r t ih =>
    intro b
    simp only [List.foldl_cons]
    rw [ih (evalRule eng text b r), evalRule_blockers]
    by_cases h : isBlockerMatch eng text r = true
    · simp [List.filter_cons, h]
    · simp [List.filter_cons, h]

theorem foldl_evalRule_conditions (eng : RegexEngine) (text : String)
    (rules : List Rule) :
    ∀ b : EvalBuckets,
      (rules.foldl (evalRule eng text) b).conditions
        = b.conditions ++
          (rules.filter (isConditionMatch eng text)).map (matchItemOf eng text) := by
  induction rules with
  | nil => intro b; simp
  | cons r t ih =>
    intro b
    simp only [List.foldl_cons]
    rw [ih (evalRule eng text b r), evalRule_conditions]
    by_cases h : isConditionMatch eng text r = true
    · simp [List.filter_cons, h]
    · simp [List.filter_cons, h]

theorem evalRules_blockers (eng : RegexEngine) (rules : List Rule) (text : String) :
    (evalRules eng rules text).blockers
      = (rules.filter (isBlockerMatch eng text)).map (matchItemOf eng text) := by
  unfold evalRules
  rw [foldl_evalRule_blockers]
  rfl

theorem evalRules_conditions (eng : RegexEngine) (rules : List Rule) (text : String) :
    (evalRules eng rules text).conditions
      = (rules.filter (isConditionMatch eng text)).map (matchItemOf eng text) := by
  unfold evalRules
  rw [foldl_evalRule_conditions]
  rfl

theorem blockers_empty_iff (eng : RegexEngine) (rules : List Rule) (text : String) :
    ((evalRules eng rules text).blockers = [])
      ↔ ¬ ∃ r ∈ rules, r.type.getD "finding" = "blocker"
          ∧ ruleMatches eng text r = true := by
  rw [evalRules_blockers]
  simp only [List.map_eq_nil_iff, List.filter_eq_nil_iff, isBlockerMatch,
    Bool.and_eq_true, beq_iff_eq]
  constructor
  · rintro h ⟨r, hr, hb, hm⟩
    exact h r hr ⟨hm, hb⟩
  · intro h r hr hc
    exact absurd ⟨r, hr, hc.2, hc.1⟩ h

theorem conditions_empty_iff (eng : RegexEngine) (rules : List Rule) (text : String) :
    ((evalRules eng rules text).conditions = [])
      ↔ ¬ ∃ r ∈ rules, r.type.getD "finding" = "condition"
          ∧ ruleMatches eng text r = true := by
  rw [evalRules_conditions]
  simp only [List.map_eq_nil_iff, List.filter_eq_nil_iff, isConditionMatch,
    Bool.and_eq_true, beq_iff_eq]
  constructor
  · rintro h ⟨r, hr, hb, hm⟩
    exact h r hr ⟨hm, hb⟩
  · intro h r hr hc
    exact absurd ⟨r, hr, hc.2, hc.1⟩ h

/-! ## Claim C1 -/

/-- Claim C1: for every evaluated rule set, the engine's decision is
`fail` iff at least one rule of type `blocker` matched the extracted
text; otherwise it is `conditional` iff at least one rule of type
`condition` matched; otherwise it is `pass`.  In particular a single
matching blocker forces `fail` regardless of how many condition/finding
rules also match. -/
theorem C1_decision_policy (eng : RegexEngine) (rules : List Rule)
    (text : String) :
    (decisionOf (evalRules eng rules text) = "fail"
      ↔ ∃ r ∈ rules, r.type.getD "finding" = "blocker"
          ∧ ruleMatches eng text r = true) ∧
    (decisionOf (evalRules eng rules text) = "conditional"
      ↔ (¬ (∃ r ∈ rules, r.type.getD "finding" = "blocker"
              ∧ ruleMatches eng text r = true) ∧
          ∃ r ∈ rules, r.type.getD "finding" = "condition"
            ∧ ruleMatches eng text r = true)) ∧
    (decisionOf (evalRules eng rules text) = "pass"
      ↔ (¬ (∃ r ∈ rules, r.type.getD "finding" = "blocker"
              ∧ ruleMatches eng text r = true) ∧
          ¬ (∃ r ∈ rules, r.type.getD "finding" = "condition"
              ∧ ruleMatches eng text r = true))) := by
  unfold decisionOf
  by_cases h1 : (evalRules eng rules text).blockers = []
  · by_cases h2 : (evalRules eng rules text).conditions = []
    · have hB := (blockers_empty_iff eng rules text).mp h1
      have hC := (conditions_empty_iff eng rules text).mp h2
      simp [h1, h2, hB, hC]
    · have hB := (blockers_empty_iff eng rules text).mp h1
      have hC : ∃ r ∈ rules, r.type.getD "finding" = "condition"
          ∧ ruleMatches eng text r = true := by
        by_contra hcc
        exact h2 ((conditions_empty_iff eng rules text).mpr hcc)
      have hlen : (evalRules eng rules text).conditions.length ≠ 0 := by
        simpa [List.length_eq_zero] using h2
      simp [h1, hB, hC, hlen, bne_iff_ne]
  · have hB : ∃ r ∈ rules, r.type.getD "finding" = "blocker"
        ∧ ruleMatches eng text r = true := by
      by_contra hcc
      exact h1 ((blockers_empty_iff eng rules text).mpr hcc)
    have hlen : (evalRules eng rules text).blockers.length ≠ 0 := by
      simpa [List.length_eq_zero] using h1
    simp [hlen, hB, bne_iff_ne]

/-! ## Claim C3 -/


/-- Counterexample to claim C3: at `now = 100` the job `"b"` is in stage
`parsing` with no lease — an eligible job in the claim's sense exists —
yet `claimOne` claims nothing (and performs no write), because the query
picked the oldest-updated in-stage job `"a"`, which holds an active
lease; the claim's `selects ... whose workerLease is absent or expired`
is not how the selection works. -/
theorem C3_counterexample :
    c3EligibleNewer.processingStage = "parsing" ∧
    leaseActiveAt c3EligibleNewer.workerLease 100 = false ∧
    ("b", c3EligibleNewer) ∈ c3Store ∧
    claimOneParsingJob "L" 100 c3Store = (none, c3Store) := by
  refine ⟨rfl, rfl, by simp [c3Store], ?_⟩
  decide

/-- Claim C3 (amended): within one atomic transaction, `claimOne`
considers only the single oldest-updated job whose `processingStage`
equals the stage filter, regardless of its lease.  If no job is in the
stage, nothing is claimed and nothing is written.  The considered job is
an in-stage member of the store of minimal `updatedAt`; if its fresh read
still has an active lease (`now < expiresAt`), the call returns "no job
claimed" with no write — even when a newer lease-free job exists —
and otherwise (fresh stage intact, lease absent or expired) it is claimed:
a lease `{holder := freshId, stage, claimedAt := now, expiresAt := now + LEASE_MS}`
is merged onto that single document and the job's id plus its fresh read
are returned. -/
theorem C3_claimOne_amended (f : String) (mark : StartMark) (leaseId : String)
    (now : Millis) (s : Store) :
    ((∀ p ∈ s, p.snd.processingStage ≠ f) →
        claimOneJob f mark leaseId now s = (none, s)) ∧
    (∀ i r, selectOldest f s = some (i, r) →
      ((i, r) ∈ s ∧ r.processingStage = f ∧
        (∀ p ∈ s, p.snd.processingStage = f → r.updatedAt ≤ p.snd.updatedAt)) ∧
      ((getApp s i).processingStage ≠ f →
        claimOneJob f mark leaseId now s = (none, s)) ∧
      (leaseActiveAt (getApp s i).workerLease now = true →
        claimOneJob f mark leaseId now s = (none, s)) ∧
      ((getApp s i).processingStage = f →
        leaseActiveAt (getApp s i).workerLease now = false →
        claimOneJob f mark leaseId now s
          = (some { leaseId := leaseId, appId := i, app := getApp s i },
             setApp s i (claimWrite f mark leaseId now)))) := by
  constructor
  · intro h
    have hsel : selectOldest f s = none := (selectOldest_none_iff f s).mpr h
    unfold claimOneJob
    rw [hsel]
  · intro i r hsel
    refine ⟨selectOldest_some_spec f s i r hsel, ?_, ?_, ?_⟩
    · intro hne
      unfold claimOneJob
      rw [hsel]
      dsimp only
      rw [if_pos (by simp [hne])]
    · intro hactive
      unfold claimOneJob
      rw [hsel]
      dsimp only
      by_cases hstage : ((getApp s i).processingStage != f) = true
      · rw [if_pos hstage]
      · rw [if_neg hstage, if_pos hactive]
    · intro hstage hinactive
      unfold claimOneJob
      rw [hsel]
      dsimp only
      rw [if_neg (by simp [hstage]), if_neg (by simp [hinactive])]

/-! ## Claims C5 and C6: lease exclusion and self-healing -/

theorem claimWrite_stage (f : String) (mark : StartMark) (id : String)
    (now : Millis) (r : AppRecord) :
    (claimWrite f mark id now r).processingStage = r.processingStage := by
  cases mark <;> rfl

theorem claimWrite_lease (f : String) (mark : StartMark) (id : String)
    (now : Millis) (r : AppRecord) :
    (claimWrite f mark id now r).workerLease
      = some { holder := id, stage := f, claimedAt := now,
               expiresAt := now + LEASE_MS } := by
  cases mark <;> rfl

theorem claimWrite_lease_active (f : String) (mark : StartMark) (id : String)
    (now : Millis) (r : AppRecord) :
    leaseActiveAt (claimWrite f mark id now r).workerLease now = true := by
  rw [claimWrite_lease]
  simp [leaseActiveAt, LEASE_MS]

/-- Claiming from a one-job store whose job is in stage with an inactive
lease succeeds and writes the lease. -/
theorem claimOneJob_singleton_free (f : String) (mark : StartMark) (id i : String)
    (r : AppRecord) (now : Millis) (hstage : r.processingStage = f)
    (hlease : leaseActiveAt r.workerLease now = false) :
    claimOneJob f mark id now [(i, r)]
      = (some { leaseId := id, appId := i, app := r },
         [(i, claimWrite f mark id now r)]) := by
  have hsel : selectOldest f [(i, r)] = some (i, r) := by
    unfold selectOldest
    simp [List.filter, hstage, pickOlder]
  have hget : getApp [(i, r)] i = r := by
    simp [getApp, List.find?_cons]
  unfold claimOneJob
  rw [hsel]
  dsimp only
  rw [hget, if_neg (by simp [hstage]), if_neg (by simp [hlease])]
  simp [setApp]

/-- Claiming from a one-job store whose job holds an active lease claims
nothing and writes nothing. -/
theorem claimOneJob_singleton_active (f : String) (mark : StartMark) (id i : String)
    (r : AppRecord) (now : Millis) (hstage : r.processingStage = f)
    (hactive : leaseActiveAt r.workerLease now = true) :
    claimOneJob f mark id now [(i, r)] = (none, [(i, r)]) := by
  have hsel : selectOldest f [(i, r)] = some (i, r) := by
    unfold selectOldest
    simp [List.filter, hstage, pickOlder]
  have hget : getApp [(i, r)] i = r := by
    simp [getApp, List.find?_cons]
  unfold claimOneJob
  rw [hsel]
  dsimp only
  rw [hget, if_neg (by simp [hstage]), if_pos hactive]


theorem runClaims_all_blocked (f : String) (mark : StartMark) (ids : List String)
    (now : Millis) (i : String) (r : AppRecord)
    (hstage : r.processingStage = f)
    (hactive : leaseActiveAt r.workerLease now = true) :
    runClaims f mark ids now [(i, r)] = (ids.map (fun _ => none), [(i, r)]) := by
  induction ids with
  | nil => rfl
  | cons id rest ih =>
    unfold runClaims
    rw [claimOneJob_singleton_active f mark id i r now hstage hactive]
    simp [ih]

theorem map_none_filter_isSome (l : List String) :
    ((l.map (fun _ => (none : Option ClaimedJob))).filter
      (fun o => o.isSome)) = [] := by
  induction l with
  | nil => rfl
  | cons x t ih => simp [List.filter, ih]

/-- Claim C5: when `N >= 1` claim attempts race (serialized by the atomic
transaction) for a store holding one eligible job, exactly the first
transaction claims it and every other attempt returns "no job claimed". -/
theorem C5_mutual_exclusion (f : String) (mark : StartMark) (i : String)
    (r : AppRecord) (now : Millis) (id0 : String) (rest : List String)
    (hstage : r.processingStage = f)
    (hlease : leaseActiveAt r.workerLease now = false) :
    (runClaims f mark (id0 :: rest) now [(i, r)]).1
      = some { leaseId := id0, appId := i, app := r }
          :: rest.map (fun _ => none) ∧
    ((runClaims f mark (id0 :: rest) now [(i, r)]).1.filter
        (fun o => o.isSome)).length = 1 := by
  have hfirst := claimOneJob_singleton_free f mark id0 i r now hstage hlease
  have hblocked := runClaims_all_blocked f mark rest now i
    (claimWrite f mark id0 now r)
    (by rw [claimWrite_stage]; exact hstage)
    (claimWrite_lease_active f mark id0 now r)
  have hmain : (runClaims f mark (id0 :: rest) now [(i, r)]).1
      = some { leaseId := id0, appId := i, app := r }
          :: rest.map (fun _ => none) := by
    unfold runClaims
    rw [hfirst]
    simp [hblocked]
  refine ⟨hmain, ?_⟩
  rw [hmain]
  simp [List.filter, map_none_filter_isSome]

/-- Witness for C5 at concrete inputs: three workers race for one
eligible job; the first wins, the two others get nothing. -/
theorem C5_mutual_exclusion_witness :
    (runClaims "parsing" StartMark.parsing ["w1", "w2", "w3"] 50
        [("j", { processingStage := "parsing", updatedAt := 0 })]).1
      = [some { leaseId := "w1", appId := "j",
                app := { processingStage := "parsing", updatedAt := 0 } },
         none, none] ∧
    ((runClaims "parsing" StartMark.parsing ["w1", "w2", "w3"] 50
        [("j", { processingStage := "parsing", updatedAt := 0 })]).1.filter
      (fun o => o.isSome)).length = 1 := by
  have h := C5_mutual_exclusion "parsing" StartMark.parsing "j"
    { processingStage := "parsing", updatedAt := 0 } 50 "w1" ["w2", "w3"]
    rfl rfl
  simpa using h

/-- Claim C6: a job claimed then abandoned (lease written, never released)
is not claimable at any instant strictly before the lease's `expiresAt`,
and is claimable again at any instant strictly after it. -/
theorem C6_lease_selfheal (f : String) (mark : StartMark) (id i : String)
    (r : AppRecord) (l : WorkerLease) (t : Millis)
    (hstage : r.processingStage = f) (hl : r.workerLease = some l) :
    (t < l.expiresAt → claimOneJob f mark id t [(i, r)] = (none, [(i, r)])) ∧
    (l.expiresAt < t →
      claimOneJob f mark id t [(i, r)]
        = (some { leaseId := id, appId := i, app := r },
           [(i, claimWrite f mark id t r)])) := by
  constructor
  · intro ht
    have hactive : leaseActiveAt r.workerLease t = true := by
      simp [leaseActiveAt, hl, ht]
    exact claimOneJob_singleton_active f mark id i r t hstage hactive
  · intro ht
    have hinactive : leaseActiveAt r.workerLease t = false := by
      rw [hl]
      show decide (t < l.expiresAt) = false
      exact decide_eq_false (Nat.not_lt.mpr (Nat.le_of_lt ht))
    exact claimOneJob_singleton_free f mark id i r t hstage hinactive

/-- Witness for C6 at concrete inputs: a lease expiring at 1000 blocks a
claim at 500 and admits one at 2000. -/
theorem C6_lease_selfheal_witness :
    claimOneJob "analyzing" StartMark.analyzing "w9" 500
        [("j", { processingStage := "analyzing", updatedAt := 0,
                 workerLease := some { holder := "w0", stage := "analyzing",
                                       claimedAt := 0, expiresAt := 1000 } })]
      = (none,
         [("j", { processingStage := "analyzing", updatedAt := 0,
                  workerLease := some { holder := "w0", stage := "analyzing",
                                        claimedAt := 0, expiresAt := 1000 } })]) ∧
    (claimOneJob "analyzing" StartMark.analyzing "w9" 2000
        [("j", { processingStage := "analyzing", updatedAt := 0,
                 workerLease := some { holder := "w0", stage := "analyzing",
                                       claimedAt := 0, expiresAt := 1000 } })]).1
      = some { leaseId := "w9", appId := "j",
               app := { processingStage := "analyzing", updatedAt := 0,
                        workerLease := some { holder := "w0", stage := "analyzing",
                                              claimedAt := 0, expiresAt := 1000 } } } := by
  constructor
  · exact (C6_lease_selfheal "analyzing" StartMark.analyzing "w9" "j" _ _ 500
      rfl rfl).1 (by decide)
  · rw [(C6_lease_selfheal "analyzing" StartMark.analyzing "w9" "j" _ _ 2000
      rfl rfl).2 (by decide)]

/-- Witness for the amended C3 at concrete inputs: on `c3Store` the query
picks the leased oldest job and the claim returns "no job claimed" with
no write. -/
theorem C3_claimOne_amended_witness :
    claimOneJob "parsing" StartMark.parsing "L" 100 c3Store = (none, c3Store) :=
  ((C3_claimOne_amended "parsing" StartMark.parsing "L" 100 c3Store).2
    "a" c3LeasedOldest (by decide)).2.2.1 (by decide)

/-! ## Branch lemmas for the analyzing route -/

theorem analyzeClaimed_skip (eng : RegexEngine) (db : Db) (now : Millis)
    (c : ClaimedJob) (s2 : Store)
    (hdrift : ((getApp s2 c.appId).processingStage != "analyzing") = true) :
    analyzeClaimed eng db now c s2
      = ({ status := 200, ok := true, processed := 0, appId := some c.appId,
           msg := some "Job no longer in analyzing; skipped." },
         releaseLease s2 c.appId now "skipped") := by
  simp only [analyzeClaimed]
  rw [if_pos hdrift]

theorem analyzeClaimed_noCompanyProfileId (eng : RegexEngine) (db : Db)
    (now : Millis) (c : ClaimedJob) (s2 : Store)
    (hstage : ((getApp s2 c.appId).processingStage != "analyzing") = false)
    (hcp : ((getApp s2 c.appId).companyProfileId == "") = true) :
    analyzeClaimed eng db now c s2
      = (failCloseResp c.appId "Missing companyProfileId; completed as conditional.",
         releaseLease
           (failClose s2 c.appId now
             "App missing companyProfileId (cannot choose rulepack)")
           c.appId now "failed") := by
  simp only [analyzeClaimed]
  rw [if_neg (by simp [hstage]), if_pos hcp]

theorem analyzeClaimed_noText (eng : RegexEngine) (db : Db)
    (now : Millis) (c : ClaimedJob) (s2 : Store)
    (hstage : ((getApp s2 c.appId).processingStage != "analyzing") = false)
    (hcp : ((getApp s2 c.appId).companyProfileId == "") = false)
    (htext : (textOf (getApp s2 c.appId) == ""
        || jsTrim (textOf (getApp s2 c.appId)) == "") = true) :
    analyzeClaimed eng db now c s2
      = (failCloseResp c.appId "Missing extracted text; completed as conditional.",
         releaseLease
           (failClose s2 c.appId now
             "Missing extractedTextCombined (cannot evaluate rules)")
           c.appId now "failed") := by
  simp only [analyzeClaimed]
  rw [if_neg (by simp [hstage]), if_neg (by simp [hcp]), if_pos htext]

theorem analyzeClaimed_noProfileDoc (eng : RegexEngine) (db : Db)
    (now : Millis) (c : ClaimedJob) (s2 : Store)
    (hstage : ((getApp s2 c.appId).processingStage != "analyzing") = false)
    (hcp : ((getApp s2 c.appId).companyProfileId == "") = false)
    (htext : (textOf (getApp s2 c.appId) == ""
        || jsTrim (textOf (getApp s2 c.appId)) == "") = false)
    (hprof : db.companyProfiles (getApp s2 c.appId).companyProfileId = none) :
    analyzeClaimed eng db now c s2
      = (failCloseResp c.appId "Company profile missing; completed as conditional.",
         releaseLease
           (failClose s2 c.appId now
             ("Company profile not found: " ++ (getApp s2 c.appId).companyProfileId))
           c.appId now "failed") := by
  simp only [analyzeClaimed]
  rw [if_neg (by simp [hstage]), if_neg (by simp [hcp]), if_neg (by simp [htext]),
    hprof]

theorem analyzeClaimed_noRulePackId (eng : RegexEngine) (db : Db)
    (now : Millis) (c : ClaimedJob) (s2 : Store) (company : CompanyProfile)
    (hstage : ((getApp s2 c.appId).processingStage != "analyzing") = false)
    (hcp : ((getApp s2 c.appId).companyProfileId == "") = false)
    (htext : (textOf (getApp s2 c.appId) == ""
        || jsTrim (textOf (getApp s2 c.appId)) == "") = false)
    (hprof : db.companyProfiles (getApp s2 c.appId).companyProfileId = some company)
    (hrpid : (company.rulePackId == "") = true) :
    analyzeClaimed eng db now c s2
      = (failCloseResp c.appId "Missing rulePackId; completed as conditional.",
         releaseLease
           (failClose s2 c.appId now
             ("companyProfiles/" ++ (getApp s2 c.appId).companyProfileId
               ++ " missing rulePackId"))
           c.appId now "failed") := by
  simp only [analyzeClaimed]
  rw [if_neg (by simp [hstage]), if_neg (by simp [hcp]), if_neg (by simp [htext]),
    hprof]
  dsimp only
  rw [if_pos hrpid]

theorem analyzeClaimed_noRulePackDoc (eng : RegexEngine) (db : Db)
    (now : Millis) (c : ClaimedJob) (s2 : Store) (company : CompanyProfile)
    (hstage : ((getApp s2 c.appId).processingStage != "analyzing") = false)
    (hcp : ((getApp s2 c.appId).companyProfileId == "") = false)
    (htext : (textOf (getApp s2 c.appId) == ""
        || jsTrim (textOf (getApp s2 c.appId)) == "") = false)
    (hprof : db.companyProfiles (getApp s2 c.appId).companyProfileId = some company)
    (hrpid : (company.rulePackId == "") = false)
    (hpack : db.rulePacks company.rulePackId = none) :
    analyzeClaimed eng db now c s2
      = (failCloseResp c.appId "Rule pack missing; completed as conditional.",
         releaseLease
           (failClose s2 c.appId now
             ("Rule pack not found: " ++ company.rulePackId))
           c.appId now "failed") := by
  simp only [analyzeClaimed]
  rw [if_neg (by simp [hstage]), if_neg (by simp [hcp]), if_neg (by simp [htext]),
    hprof]
  dsimp only
  rw [if_neg (by simp [hrpid]), hpack]

theorem analyzeClaimed_success_fields (eng : RegexEngine) (db : Db)
    (now : Millis) (c : ClaimedJob) (s2 : Store) (company : CompanyProfile)
    (pack : RulePack)
    (hkey : containsKey s2 c.appId = true)
    (hstage : ((getApp s2 c.appId).processingStage != "analyzing") = false)
    (hcp : ((getApp s2 c.appId).companyProfileId == "") = false)
    (htext : (textOf (getApp s2 c.appId) == ""
        || jsTrim (textOf (getApp s2 c.appId)) == "") = false)
    (hprof : db.companyProfiles (getApp s2 c.appId).companyProfileId = some company)
    (hrpid : (company.rulePackId == "") = false)
    (hpack : db.rulePacks company.rulePackId = some pack) :
    (analyzeClaimed eng db now c s2).1.status = 200 ∧
    (analyzeClaimed eng db now c s2).1.ok = true ∧
    (analyzeClaimed eng db now c s2).1.processed = 1 ∧
    (analyzeClaimed eng db now c s2).1.decision
      = some (decisionOf (evalRules eng
          (pack.rules.map (fun r => { r with source := some "base" })
            ++ (resolveOverlay db (getApp s2 c.appId)).2.2.2.2.2)
          (textOf (getApp s2 c.appId)))) ∧
    (getApp (analyzeClaimed eng db now c s2).2 c.appId).processingStage
      = "ai_completed" ∧
    (getApp (analyzeClaimed eng db now c s2).2 c.appId).decision
      = some (decisionOf (evalRules eng
          (pack.rules.map (fun r => { r with source := some "base" })
            ++ (resolveOverlay db (getApp s2 c.appId)).2.2.2.2.2)
          (textOf (getApp s2 c.appId)))) ∧
    (getApp (analyzeClaimed eng db now c s2).2 c.appId).decisionArtifactPublic.isSome
      = true ∧
    (getApp (analyzeClaimed eng db now c s2).2 c.appId).decisionArtifactRaw.isSome
      = true ∧
    (getApp (analyzeClaimed eng db now c s2).2 c.appId).lastError = none ∧
    (getApp (analyzeClaimed eng db now c s2).2 c.appId).error = none ∧
    (getApp (analyzeClaimed eng db now c s2).2 c.appId).leaseReleaseReason
      = some "success" ∧
    (getApp (analyzeClaimed eng db now c s2).2 c.appId).workerLease = none := by
  simp only [analyzeClaimed]
  rw [if_neg (by simp [hstage]), if_neg (by simp [hcp]), if_neg (by simp [htext]),
    hprof]
  dsimp only
  rw [if_neg (by simp [hrpid]), hpack]
  dsimp only
  simp only [releaseLease]
  rw [getApp_setApp_self _ _ _ (by rw [containsKey_setApp]; exact hkey),
    getApp_setApp_self _ _ _ hkey]
  simp

theorem analyzingPOST_claimed (eng : RegexEngine) (db : Db) (expected got : String)
    (interfere : Store → Store) (leaseId : String) (now : Millis) (s : Store)
    (c : ClaimedJob) (s1 : Store)
    (hexp : (expected == "") = false)
    (hgot : ((got == "") || (got != expected)) = false)
    (hclaim : claimOneAnalyzingJob leaseId now s = (some c, s1)) :
    analyzingPOST eng db expected got interfere leaseId now s
      = analyzeClaimed eng db now c (interfere s1) := by
  simp only [analyzingPOST]
  rw [if_neg (by simp [hexp]), if_neg (by simp [hgot]), hclaim]

theorem analyzingPOST_noclaim (eng : RegexEngine) (db : Db) (expected got : String)
    (interfere : Store → Store) (leaseId : String) (now : Millis) (s : Store)
    (s1 : Store)
    (hexp : (expected == "") = false)
    (hgot : ((got == "") || (got != expected)) = false)
    (hclaim : claimOneAnalyzingJob leaseId now s = (none, s1)) :
    analyzingPOST eng db expected got interfere leaseId now s
      = ({ status := 200, ok := true, processed := 0,
           msg := some "No claimable analyzing jobs." }, s1) := by
  simp only [analyzingPOST]
  rw [if_neg (by simp [hexp]), if_neg (by simp [hgot]), hclaim]

/-! ## Branch lemmas for the parsing route -/

theorem parsingPOST_claimed (env : ParsingEnv) (expected got : String)
    (interfere : Store → Store) (leaseId : String) (now : Millis) (s : Store)
    (c : ClaimedJob) (s1 : Store)
    (hauth : ((expected != "") && (got != expected)) = false)
    (hclaim : claimOneParsingJob leaseId now s = (some c, s1)) :
    parsingPOST env expected got interfere leaseId now s
      = parseClaimed env now c (interfere s1) := by
  simp only [parsingPOST]
  rw [if_neg (by simp [hauth]), hclaim]

theorem parsingPOST_noclaim (env : ParsingEnv) (expected got : String)
    (interfere : Store → Store) (leaseId : String) (now : Millis) (s : Store)
    (s1 : Store)
    (hauth : ((expected != "") && (got != expected)) = false)
    (hclaim : claimOneParsingJob leaseId now s = (none, s1)) :
    parsingPOST env expected got interfere leaseId now s
      = ({ status := 200, ok := true, processed := 0,
           msg := some "No claimable parsing jobs." }, s1) := by
  simp only [parsingPOST]
  rw [if_neg (by simp [hauth]), hclaim]

theorem parseClaimed_noObjectPath (env : ParsingEnv) (now : Millis)
    (c : ClaimedJob) (s2 : Store)
    (hobj : ((getApp s2 c.appId).objectPath == "") = true) :
    parseClaimed env now c s2
      = ({ status := 500, ok := false, processed := 0, appId := some c.appId,
           errMsg := some "Missing required field: objectPath" },
         releaseLease
           (setApp s2 c.appId (fun a =>
             { a with processingStage := "parsing_failed",
                      parsingError := some "Missing required field: objectPath",
                      parsingFailedAt := some now, updatedAt := now }))
           c.appId now "failed") := by
  simp only [parseClaimed]
  rw [if_pos hobj]

theorem parseClaimed_skip (env : ParsingEnv) (now : Millis)
    (c : ClaimedJob) (s2 : Store)
    (hobj : ((getApp s2 c.appId).objectPath == "") = false)
    (hdrift : ((getApp s2 c.appId).processingStage != "parsing") = true) :
    parseClaimed env now c s2
      = ({ status := 200, ok := true, processed := 0, appId := some c.appId,
           msg := some "Job no longer in parsing; skipped." },
         releaseLease s2 c.appId now "skipped") := by
  simp only [parseClaimed]
  rw [if_neg (by simp [hobj]), if_pos hdrift]

theorem parseClaimed_success (env : ParsingEnv) (now : Millis)
    (c : ClaimedJob) (s2 : Store) (t ex : String) (fb : Bool)
    (hobj : ((getApp s2 c.appId).objectPath == "") = false)
    (hstage : ((getApp s2 c.appId).processingStage != "parsing") = false)
    (hout : extractOutcome env = .success t ex fb) :
    parseClaimed env now c s2
      = ({ status := 200, ok := true, processed := 1, appId := some c.appId,
           extractor := some ex, extractedTextLength := some t.length,
           fallbackUsed := some fb },
         releaseLease (setApp s2 c.appId (parsingSuccessWrite t ex fb now))
           c.appId now "success") := by
  simp only [parseClaimed]
  rw [if_neg (by simp [hobj]), if_neg (by simp [hstage]), hout]

theorem parseClaimed_failure (env : ParsingEnv) (now : Millis)
    (c : ClaimedJob) (s2 : Store) (e2 : String)
    (hobj : ((getApp s2 c.appId).objectPath == "") = false)
    (hstage : ((getApp s2 c.appId).processingStage != "parsing") = false)
    (hout : extractOutcome env = .failure e2) :
    parseClaimed env now c s2
      = ({ status := 500, ok := false, processed := 0, appId := some c.appId,
           errMsg := some e2 },
         releaseLease (setApp s2 c.appId (parsingFailWrite e2 now))
           c.appId now "failed") := by
  simp only [parseClaimed]
  rw [if_neg (by simp [hobj]), if_neg (by simp [hstage]), hout]

/-! ## Claim C2 -/

theorem append_ne_empty_left (a b : String) (ha : a.length ≠ 0) :
    a ++ b ≠ "" := by
  intro h
  have hl := congrArg String.length h
  rw [String.length_append] at hl
  simp at hl
  exact ha hl.1

theorem append_ne_empty_right (a b : String) (hb : b.length ≠ 0) :
    a ++ b ≠ "" := by
  intro h
  have hl := congrArg String.length h
  rw [String.length_append] at hl
  simp at hl
  exact hb hl.2

/-- Fields of the job record after a fail-closed write and a `failed`
lease release; the two artifact fields are untouched. -/
theorem failClose_release_fields (s : Store) (i : String) (now : Millis)
    (m : String) (hkey : containsKey s i = true) :
    (getApp (releaseLease (failClose s i now m) i now "failed") i).processingStage
      = "ai_completed" ∧
    (getApp (releaseLease (failClose s i now m) i now "failed") i).decision
      = some "conditional" ∧
    (getApp (releaseLease (failClose s i now m) i now "failed") i).error
      = some m ∧
    (getApp (releaseLease (failClose s i now m) i now "failed") i).lastError
      = some m ∧
    (getApp (releaseLease (failClose s i now m) i now "failed") i).leaseReleaseReason
      = some "failed" ∧
    (getApp (releaseLease (failClose s i now m) i now "failed") i).workerLease
      = none ∧
    (getApp (releaseLease (failClose s i now m) i now "failed") i).decisionArtifactPublic
      = (getApp s i).decisionArtifactPublic ∧
    (getApp (releaseLease (failClose s i now m) i now "failed") i).decisionArtifactRaw
      = (getApp s i).decisionArtifactRaw := by
  simp only [releaseLease, failClose]
  rw [getApp_setApp_self _ _ _ (by rw [containsKey_setApp]; exact hkey),
    getApp_setApp_self _ _ _ hkey]
  simp

/-- `containsKey` of the post-claim collection. -/
theorem claim_containsKey (f : String) (mark : StartMark) (leaseId : String)
    (now : Millis) (s : Store) (c : ClaimedJob) (s1 : Store)
    (h : claimOneJob f mark leaseId now s = (some c, s1)) :
    containsKey s1 c.appId = true := by
  obtain ⟨-, hk, -, -, -, hs1⟩ :=
    claimOneJob_some_spec f mark leaseId now s c s1 h
  rw [hs1, containsKey_setApp]
  exact hk

/-- Claim C2: for every analyzing-stage job claimed by the Rule Evaluation
Engine, the five required inputs are checked in strict source order
(missing `companyProfileId`; empty/missing extracted text;
`companyProfileId` not resolving to a company profile; company profile
missing `rulePackId`; `rulePackId` not resolving to a rule pack), and the
first failing check terminates the run with decision `conditional`
(never `pass`), a non-empty error string recorded on both `error` and
`lastError`, stage advanced to `ai_completed`, lease released `failed`,
and an HTTP 200 response with `processed = 1`. -/
theorem C2_fail_closed (eng : RegexEngine) (db : Db) (expected got : String)
    (leaseId : String) (now : Millis) (s : Store) (c : ClaimedJob) (s1 : Store)
    (hexp : (expected == "") = false)
    (hgot : ((got == "") || (got != expected)) = false)
    (hclaim : claimOneAnalyzingJob leaseId now s = (some c, s1))
    (hstage : ((getApp s1 c.appId).processingStage != "analyzing") = false) :
    (((getApp s1 c.appId).companyProfileId == "") = true →
      failClosedOutcome
        (analyzingPOST eng db expected got (fun st => st) leaseId now s)
        c.appId "App missing companyProfileId (cannot choose rulepack)" ∧
      "App missing companyProfileId (cannot choose rulepack)" ≠ "") ∧
    (((getApp s1 c.appId).companyProfileId == "") = false →
      ((textOf (getApp s1 c.appId) == ""
          || jsTrim (textOf (getApp s1 c.appId)) == "") = true) →
      failClosedOutcome
        (analyzingPOST eng db expected got (fun st => st) leaseId now s)
        c.appId "Missing extractedTextCombined (cannot evaluate rules)" ∧
      "Missing extractedTextCombined (cannot evaluate rules)" ≠ "") ∧
    (((getApp s1 c.appId).companyProfileId == "") = false →
      ((textOf (getApp s1 c.appId) == ""
          || jsTrim (textOf (getApp s1 c.appId)) == "") = false) →
      db.companyProfiles (getApp s1 c.appId).companyProfileId = none →
      failClosedOutcome
        (analyzingPOST eng db expected got (fun st => st) leaseId now s)
        c.appId ("Company profile not found: "
                  ++ (getApp s1 c.appId).companyProfileId) ∧
      ("Company profile not found: " ++ (getApp s1 c.appId).companyProfileId)
        ≠ "") ∧
    (∀ company : CompanyProfile,
      ((getApp s1 c.appId).companyProfileId == "") = false →
      ((textOf (getApp s1 c.appId) == ""
          || jsTrim (textOf (getApp s1 c.appId)) == "") = false) →
      db.companyProfiles (getApp s1 c.appId).companyProfileId = some company →
      (company.rulePackId == "") = true →
      failClosedOutcome
        (analyzingPOST eng db expected got (fun st => st) leaseId now s)
        c.appId ("companyProfiles/" ++ (getApp s1 c.appId).companyProfileId
                  ++ " missing rulePackId") ∧
      ("companyProfiles/" ++ (getApp s1 c.appId).companyProfileId
        ++ " missing rulePackId") ≠ "") ∧
    (∀ company : CompanyProfile,
      ((getApp s1 c.appId).companyProfileId == "") = false →
      ((textOf (getApp s1 c.appId) == ""
          || jsTrim (textOf (getApp s1 c.appId)) == "") = false) →
      db.companyProfiles (getApp s1 c.appId).companyProfileId = some company →
      (company.rulePackId == "") = false →
      db.rulePacks company.rulePackId = none →
      failClosedOutcome
        (analyzingPOST eng db expected got (fun st => st) leaseId now s)
        c.appId ("Rule pack not found: " ++ company.rulePackId) ∧
      ("Rule pack not found: " ++ company.rulePackId) ≠ "") := by
  have hkey1 : containsKey s1 c.appId = true :=
    claim_containsKey "analyzing" StartMark.analyzing leaseId now s c s1 hclaim
  have hpost : analyzingPOST eng db expected got (fun st => st) leaseId now s
      = analyzeClaimed eng db now c s1 :=
    analyzingPOST_claimed eng db expected got (fun st => st) leaseId now s c s1
      hexp hgot hclaim
  refine ⟨?_, ?_, ?_, ?_, ?_⟩
  · intro hcp
    obtain ⟨f1, f2, f3, f4, f5, f6, -, -⟩ :=
      failClose_release_fields s1 c.appId now
        "App missing companyProfileId (cannot choose rulepack)" hkey1
    rw [failClosedOutcome, hpost,
      analyzeClaimed_noCompanyProfileId eng db now c s1 hstage hcp]
    exact ⟨⟨rfl, rfl, rfl, rfl, f1, f2, f3, f4, f5, f6⟩, by decide⟩
  · intro hcp htext
    obtain ⟨f1, f2, f3, f4, f5, f6, -, -⟩ :=
      failClose_release_fields s1 c.appId now
        "Missing extractedTextCombined (cannot evaluate rules)" hkey1
    rw [failClosedOutcome, hpost,
      analyzeClaimed_noText eng db now c s1 hstage hcp htext]
    exact ⟨⟨rfl, rfl, rfl, rfl, f1, f2, f3, f4, f5, f6⟩, by decide⟩
  · intro hcp htext hprof
    obtain ⟨f1, f2, f3, f4, f5, f6, -, -⟩ :=
      failClose_release_fields s1 c.appId now
        ("Company profile not found: " ++ (getApp s1 c.appId).companyProfileId)
        hkey1
    rw [failClosedOutcome, hpost,
      analyzeClaimed_noProfileDoc eng db now c s1 hstage hcp htext hprof]
    exact ⟨⟨rfl, rfl, rfl, rfl, f1, f2, f3, f4, f5, f6⟩,
      append_ne_empty_left _ _ (by decide)⟩
  · intro company hcp htext hprof hrpid
    obtain ⟨f1, f2, f3, f4, f5, f6, -, -⟩ :=
      failClose_release_fields s1 c.appId now
        ("companyProfiles/" ++ (getApp s1 c.appId).companyProfileId
          ++ " missing rulePackId") hkey1
    rw [failClosedOutcome, hpost,
      analyzeClaimed_noRulePackId eng db now c s1 company hstage hcp htext
        hprof hrpid]
    exact ⟨⟨rfl, rfl, rfl, rfl, f1, f2, f3, f4, f5, f6⟩,
      append_ne_empty_right _ _ (by decide)⟩
  · intro company hcp htext hprof hrpid hpack
    obtain ⟨f1, f2, f3, f4, f5, f6, -, -⟩ :=
      failClose_release_fields s1 c.appId now
        ("Rule pack not found: " ++ company.rulePackId) hkey1
    rw [failClosedOutcome, hpost,
      analyzeClaimed_noRulePackDoc eng db now c s1 company hstage hcp htext
        hprof hrpid hpack]
    exact ⟨⟨rfl, rfl, rfl, rfl, f1, f2, f3, f4, f5, f6⟩,
      append_ne_empty_left _ _ (by decide)⟩

/-- Witness for C2 at concrete inputs: a claimed analyzing job whose
`companyProfileId` is missing completes as `conditional` with the error
recorded, stage `ai_completed`, lease released `failed`, HTTP 200. -/
theorem C2_fail_closed_witness :
    failClosedOutcome
      (analyzingPOST trivialEng emptyDb "sec" "sec" (fun st => st) "L" 9 c2Store)
      "a2" "App missing companyProfileId (cannot choose rulepack)" :=
  ((C2_fail_closed trivialEng emptyDb "sec" "sec" "L" 9 c2Store
      { leaseId := "L", appId := "a2", app := c2Job }
      (setApp c2Store "a2" (claimWrite "analyzing" StartMark.analyzing "L" 9))
      (by decide) (by decide) (by decide) (by decide)).1 (by decide)).1

/-! ## Claim C10 -/

/-- Claim C10: every fail-closed early exit of the analyzing route (the
five missing-required-input cases) completes the job as `conditional` on
stage `ai_completed` while leaving both `decisionArtifactPublic` and
`decisionArtifactRaw` exactly as they were; only the full-evaluation
success path writes the two artifact fields — so a job can reach
`ai_completed` with a decision but no decision artifact. -/
theorem C10_artifact_frame (eng : RegexEngine) (db : Db) (expected got : String)
    (leaseId : String) (now : Millis) (s : Store) (c : ClaimedJob) (s1 : Store)
    (hexp : (expected == "") = false)
    (hgot : ((got == "") || (got != expected)) = false)
    (hclaim : claimOneAnalyzingJob leaseId now s = (some c, s1))
    (hstage : ((getApp s1 c.appId).processingStage != "analyzing") = false) :
    (((getApp s1 c.appId).companyProfileId == "") = true →
      (getApp (analyzingPOST eng db expected got (fun st => st) leaseId now s).2
          c.appId).decisionArtifactPublic
        = (getApp s1 c.appId).decisionArtifactPublic ∧
      (getApp (analyzingPOST eng db expected got (fun st => st) leaseId now s).2
          c.appId).decisionArtifactRaw
        = (getApp s1 c.appId).decisionArtifactRaw ∧
      (getApp (analyzingPOST eng db expected got (fun st => st) leaseId now s).2
          c.appId).processingStage = "ai_completed" ∧
      (getApp (analyzingPOST eng db expected got (fun st => st) leaseId now s).2
          c.appId).decision = some "conditional") ∧
    (((getApp s1 c.appId).companyProfileId == "") = false →
      ((textOf (getApp s1 c.appId) == ""
          || jsTrim (textOf (getApp s1 c.appId)) == "") = true) →
      (getApp (analyzingPOST eng db expected got (fun st => st) leaseId now s).2
          c.appId).decisionArtifactPublic
        = (getApp s1 c.appId).decisionArtifactPublic ∧
      (getApp (analyzingPOST eng db expected got (fun st => st) leaseId now s).2
          c.appId).decisionArtifactRaw
        = (getApp s1 c.appId).decisionArtifactRaw ∧
      (getApp (analyzingPOST eng db expected got (fun st => st) leaseId now s).2
          c.appId).processingStage = "ai_completed" ∧
      (getApp (analyzingPOST eng db expected got (fun st => st) leaseId now s).2
          c.appId).decision = some "conditional") ∧
    (((getApp s1 c.appId).companyProfileId == "") = false →
      ((textOf (getApp s1 c.appId) == ""
          || jsTrim (textOf (getApp s1 c.appId)) == "") = false) →
      db.companyProfiles (getApp s1 c.appId).companyProfileId = none →
      (getApp (analyzingPOST eng db expected got (fun st => st) leaseId now s).2
          c.appId).decisionArtifactPublic
        = (getApp s1 c.appId).decisionArtifactPublic ∧
      (getApp (analyzingPOST eng db expected got (fun st => st) leaseId now s).2
          c.appId).decisionArtifactRaw
        = (getApp s1 c.appId).decisionArtifactRaw ∧
      (getApp (analyzingPOST eng db expected got (fun st => st) leaseId now s).2
          c.appId).processingStage = "ai_completed" ∧
      (getApp (analyzingPOST eng db expected got (fun st => st) leaseId now s).2
          c.appId).decision = some "conditional") ∧
    (∀ company : CompanyProfile,
      ((getApp s1 c.appId).companyProfileId == "") = false →
      ((textOf (getApp s1 c.appId) == ""
          || jsTrim (textOf (getApp s1 c.appId)) == "") = false) →
      db.companyProfiles (getApp s1 c.appId).companyProfileId = some company →
      (company.rulePackId == "") = true →
      (getApp (analyzingPOST eng db expected got (fun st => st) leaseId now s).2
          c.appId).decisionArtifactPublic
        = (getApp s1 c.appId).decisionArtifactPublic ∧
      (getApp (analyzingPOST eng db expected got (fun st => st) leaseId now s).2
          c.appId).decisionArtifactRaw
        = (getApp s1 c.appId).decisionArtifactRaw ∧
      (getApp (analyzingPOST eng db expected got (fun st => st) leaseId now s).2
          c.appId).processingStage = "ai_completed" ∧
      (getApp (analyzingPOST eng db expected got (fun st => st) leaseId now s).2
          c.appId).decision = some "conditional") ∧
    (∀ company : CompanyProfile,
      ((getApp s1 c.appId).companyProfileId == "") = false →
      ((textOf (getApp s1 c.appId) == ""
          || jsTrim (textOf (getApp s1 c.appId)) == "") = false) →
      db.companyProfiles (getApp s1 c.appId).companyProfileId = some company →
      (company.rulePackId == "") = false →
      db.rulePacks company.rulePackId = none →
      (getApp (analyzingPOST eng db expected got (fun st => st) leaseId now s).2
          c.appId).decisionArtifactPublic
        = (getApp s1 c.appId).decisionArtifactPublic ∧
      (getApp (analyzingPOST eng db expected got (fun st => st) leaseId now s).2
          c.appId).decisionArtifactRaw
        = (getApp s1 c.appId).decisionArtifactRaw ∧
      (getApp (analyzingPOST eng db expected got (fun st => st) leaseId now s).2
          c.appId).processingStage = "ai_completed" ∧
      (getApp (analyzingPOST eng db expected got (fun st => st) leaseId now s).2
          c.appId).decision = some "conditional") ∧
    (∀ (company : CompanyProfile) (pack : RulePack),
      ((getApp s1 c.appId).companyProfileId == "") = false →
      ((textOf (getApp s1 c.appId) == ""
          || jsTrim (textOf (getApp s1 c.appId)) == "") = false) →
      db.companyProfiles (getApp s1 c.appId).companyProfileId = some company →
      (company.rulePackId == "") = false →
      db.rulePacks company.rulePackId = some pack →
      (getApp (analyzingPOST eng db expected got (fun st => st) leaseId now s).2
          c.appId).decisionArtifactPublic.isSome = true ∧
      (getApp (analyzingPOST eng db expected got (fun st => st) leaseId now s).2
          c.appId).decisionArtifactRaw.isSome = true ∧
      (getApp (analyzingPOST eng db expected got (fun st => st) leaseId now s).2
          c.appId).processingStage = "ai_completed") := by
  have hkey1 : containsKey s1 c.appId = true :=
    claim_containsKey "analyzing" StartMark.analyzing leaseId now s c s1 hclaim
  have hpost : analyzingPOST eng db expected got (fun st => st) leaseId now s
      = analyzeClaimed eng db now c s1 :=
    analyzingPOST_claimed eng db expected got (fun st => st) leaseId now s c s1
      hexp hgot hclaim
  refine ⟨?_, ?_, ?_, ?_, ?_, ?_⟩
  · intro hcp
    obtain ⟨f1, f2, -, -, -, -, f7, f8⟩ :=
      failClose_release_fields s1 c.appId now
        "App missing companyProfileId (cannot choose rulepack)" hkey1
    rw [hpost, analyzeClaimed_noCompanyProfileId eng db now c s1 hstage hcp]
    exact ⟨f7, f8, f1, f2⟩
  · intro hcp htext
    obtain ⟨f1, f2, -, -, -, -, f7, f8⟩ :=
      failClose_release_fields s1 c.appId now
        "Missing extractedTextCombined (cannot evaluate rules)" hkey1
    rw [hpost, analyzeClaimed_noText eng db now c s1 hstage hcp htext]
    exact ⟨f7, f8, f1, f2⟩
  · intro hcp htext hprof
    obtain ⟨f1, f2, -, -, -, -, f7, f8⟩ :=
      failClose_release_fields s1 c.appId now
        ("Company profile not found: " ++ (getApp s1 c.appId).companyProfileId)
        hkey1
    rw [hpost, analyzeClaimed_noProfileDoc eng db now c s1 hstage hcp htext hprof]
    exact ⟨f7, f8, f1, f2⟩
  · intro company hcp htext hprof hrpid
    obtain ⟨f1, f2, -, -, -, -, f7, f8⟩ :=
      failClose_release_fields s1 c.appId now
        ("companyProfiles/" ++ (getApp s1 c.appId).companyProfileId
          ++ " missing rulePackId") hkey1
    rw [hpost, analyzeClaimed_noRulePackId eng db now c s1 company hstage hcp
      htext hprof hrpid]
    exact ⟨f7, f8, f1, f2⟩
  · intro company hcp htext hprof hrpid hpack
    obtain ⟨f1, f2, -, -, -, -, f7, f8⟩ :=
      failClose_release_fields s1 c.appId now
        ("Rule pack not found: " ++ company.rulePackId) hkey1
    rw [hpost, analyzeClaimed_noRulePackDoc eng db now c s1 company hstage hcp
      htext hprof hrpid hpack]
    exact ⟨f7, f8, f1, f2⟩
  · intro company pack hcp htext hprof hrpid hpack
    obtain ⟨-, -, -, -, g5, -, g7, g8, -, -, -, -⟩ :=
      analyzeClaimed_success_fields eng db now c s1 company pack hkey1 hstage
        hcp htext hprof hrpid hpack
    rw [hpost]
    exact ⟨g7, g8, g5⟩

/-- Witness for C10 at concrete inputs: the missing-`companyProfileId`
exit leaves the job at `ai_completed` with `decision = conditional` and
both artifact fields still absent. -/
theorem C10_artifact_frame_witness :
    (getApp (analyzingPOST trivialEng emptyDb "sec" "sec" (fun st => st)
        "L" 9 c2Store).2 "a2").decisionArtifactPublic = none ∧
    (getApp (analyzingPOST trivialEng emptyDb "sec" "sec" (fun st => st)
        "L" 9 c2Store).2 "a2").decisionArtifactRaw = none ∧
    (getApp (analyzingPOST trivialEng emptyDb "sec" "sec" (fun st => st)
        "L" 9 c2Store).2 "a2").processingStage = "ai_completed" ∧
    (getApp (analyzingPOST trivialEng emptyDb "sec" "sec" (fun st => st)
        "L" 9 c2Store).2 "a2").decision = some "conditional" := by
  obtain ⟨h1, h2, h3, h4⟩ :=
    (C10_artifact_frame trivialEng emptyDb "sec" "sec" "L" 9 c2Store
      { leaseId := "L", appId := "a2", app := c2Job }
      (setApp c2Store "a2" (claimWrite "analyzing" StartMark.analyzing "L" 9))
      (by decide) (by decide) (by decide) (by decide)).1 (by decide)
  exact ⟨h1.trans (by decide), h2.trans (by decide), h3, h4⟩

/-! ## Claim C4 -/

/-- Counterexample to claim C4: the job `a4` (no `objectPath`) is claimed
in stage `parsing`, and externally advanced to `analyzing` before the
worker's re-read; the claim demands that the worker then performs no
mutation beyond releasing the lease as `skipped`, but the parsing
worker's missing-`objectPath` guard runs before its drift guard, so it
writes `parsing_failed` over the externally-advanced stage and releases
the lease as `failed` — a regression of `processingStage` by the worker. -/
theorem C4_counterexample :
    (claimOneParsingJob "L" 7 c4Store).1
      = some { leaseId := "L", appId := "a4", app := c4Job } ∧
    (getApp (c4Interfere (claimOneParsingJob "L" 7 c4Store).2) "a4").processingStage
      = "analyzing" ∧
    (getApp (parsingPOST failEnv "" "" c4Interfere "L" 7 c4Store).2
        "a4").processingStage = "parsing_failed" ∧
    (getApp (parsingPOST failEnv "" "" c4Interfere "L" 7 c4Store).2
        "a4").leaseReleaseReason = some "failed" := by
  refine ⟨by decide, by decide, by decide, by decide⟩

/-- Claim C4 (amended): for every claimed job whose `processingStage` was
externally changed away from the claimed stage between claim and
processing, the analyzing worker performs no state mutation beyond
releasing the lease with reason `skipped`; the parsing worker does the
same provided the job's `objectPath` is present — but when `objectPath`
is missing, its `objectPath` guard precedes the drift guard and it marks
the drifted job `parsing_failed` instead (as the counterexample shows),
so stage-regression-freedom holds only outside that case. -/
theorem C4_drift_amended :
    (∀ (eng : RegexEngine) (db : Db) (expected got : String)
        (interfere : Store → Store) (leaseId : String) (now : Millis)
        (s : Store) (c : ClaimedJob) (s1 : Store),
      (expected == "") = false →
      ((got == "") || (got != expected)) = false →
      claimOneAnalyzingJob leaseId now s = (some c, s1) →
      ((getApp (interfere s1) c.appId).processingStage != "analyzing") = true →
      analyzingPOST eng db expected got interfere leaseId now s
        = ({ status := 200, ok := true, processed := 0, appId := some c.appId,
             msg := some "Job no longer in analyzing; skipped." },
           releaseLease (interfere s1) c.appId now "skipped")) ∧
    (∀ (env : ParsingEnv) (expected got : String) (interfere : Store → Store)
        (leaseId : String) (now : Millis) (s : Store) (c : ClaimedJob)
        (s1 : Store),
      ((expected != "") && (got != expected)) = false →
      claimOneParsingJob leaseId now s = (some c, s1) →
      ((getApp (interfere s1) c.appId).objectPath == "") = false →
      ((getApp (interfere s1) c.appId).processingStage != "parsing") = true →
      parsingPOST env expected got interfere leaseId now s
        = ({ status := 200, ok := true, processed := 0, appId := some c.appId,
             msg := some "Job no longer in parsing; skipped." },
           releaseLease (interfere s1) c.appId now "skipped")) := by
  constructor
  · intro eng db expected got interfere leaseId now s c s1 hexp hgot hclaim hdrift
    rw [analyzingPOST_claimed eng db expected got interfere leaseId now s c s1
      hexp hgot hclaim]
    exact analyzeClaimed_skip eng db now c (interfere s1) hdrift
  · intro env expected got interfere leaseId now s c s1 hauth hclaim hobj hdrift
    rw [parsingPOST_claimed env expected got interfere leaseId now s c s1
      hauth hclaim]
    exact parseClaimed_skip env now c (interfere s1) hobj hdrift

/-- Witness for the amended C4 at concrete inputs: a drifted parsing job
with an `objectPath` is only released `skipped`, its externally-advanced
stage untouched. -/
theorem C4_drift_amended_witness :
    (getApp (parsingPOST failEnv "" "" c4ParsInterfere "L" 7 c9Store).2
        "a9").leaseReleaseReason = some "skipped" ∧
    (getApp (parsingPOST failEnv "" "" c4ParsInterfere "L" 7 c9Store).2
        "a9").processingStage = "analyzing" := by
  have h := C4_drift_amended.2 failEnv "" "" c4ParsInterfere "L" 7 c9Store
    { leaseId := "L", appId := "a9", app := c9Job }
    (setApp c9Store "a9" (claimWrite "parsing" StartMark.parsing "L" 7))
    (by decide) (by decide) (by decide) (by decide)
  rw [h]
  exact ⟨by decide, by decide⟩

/-! ## Extraction-path lemmas -/

theorem tryDownloadParse_ok (env : ParsingEnv) (t : String) (k : Nat)
    (h : tryDownloadParse env = (.ok t, k)) :
    ∃ b, env.parse b = .ok t := by
  unfold tryDownloadParse at h
  cases h0 : dlRetry env 0 with
  | mk r0 k0 =>
    rw [h0] at h
    cases r0 with
    | error e => simp at h
    | ok p =>
      rcases p with ⟨buf, attempt⟩
      dsimp only at h
      cases hp : env.parse buf with
      | ok t0 =>
        rw [hp] at h
        dsimp only at h
        injection h with ha hb
        injection ha with hc
        exact ⟨buf, by rw [hp, hc]⟩
      | error perr =>
        rw [hp] at h
        dsimp only at h
        by_cases hatt : (attempt == 1) = true
        · rw [if_pos hatt] at h
          cases h1 : dlRetry env k0 with
          | mk r1 k1 =>
            rw [h1] at h
            cases r1 with
            | error e => simp at h
            | ok p2 =>
              rcases p2 with ⟨buf2, a2⟩
              dsimp only at h
              cases hp2 : env.parse buf2 with
              | ok t0 =>
                rw [hp2] at h
                dsimp only at h
                injection h with ha hb
                injection ha with hc
                exact ⟨buf2, by rw [hp2, hc]⟩
              | error e =>
                rw [hp2] at h
                simp at h
        · rw [if_neg hatt] at h
          simp at h

theorem tryPrimary_ok (env : ParsingEnv) (t : String) (k : Nat)
    (h : tryPrimary env = (.ok t, k)) :
    t ≠ "" ∧ ∃ b raw, env.parse b = .ok raw ∧ t = normalizeText raw := by
  unfold tryPrimary at h
  cases h0 : tryDownloadParse env with
  | mk r0 k0 =>
    rw [h0] at h
    cases r0 with
    | error e => simp at h
    | ok t0 =>
      dsimp only at h
      by_cases he : (normalizeText t0 == "") = true
      · rw [if_pos he] at h
        simp at h
      · rw [if_neg he] at h
        injection h with ha hb
        injection ha with hc
        refine ⟨by rw [← hc]; simpa using he, ?_⟩
        obtain ⟨b, hb2⟩ := tryDownloadParse_ok env t0 k0 h0
        exact ⟨b, t0, hb2, hc.symm⟩

theorem fallbackRepair_not_xref (env : ParsingEnv) (e1 : String) (k : Nat)
    (hx : isLikelyXrefError e1 = false) :
    fallbackRepair env e1 k = (.error e1, k) := by
  unfold fallbackRepair
  rw [hx]
  simp

theorem fallbackRepair_ok (env : ParsingEnv) (e1 : String) (k0 : Nat)
    (t : String) (k2 : Nat) (h : fallbackRepair env e1 k0 = (.ok t, k2)) :
    isLikelyXrefError e1 = true ∧ t ≠ "" ∧
      ∃ b raw, env.parse b = .ok raw ∧ t = normalizeText raw := by
  by_cases hx : isLikelyXrefError e1 = true
  · refine ⟨hx, ?_⟩
    unfold fallbackRepair at h
    rw [hx] at h
    simp only [Bool.not_true, Bool.false_eq_true, if_false] at h
    cases h1 : dlRetry env k0 with
    | mk r1 k1 =>
      rw [h1] at h
      cases r1 with
      | error e => simp at h
      | ok p =>
        rcases p with ⟨raw0, a0⟩
        dsimp only at h
        cases h2 : env.repair raw0 with
        | error e => rw [h2] at h; simp at h
        | ok repaired =>
          rw [h2] at h
          dsimp only at h
          cases h3 : env.parse repaired with
          | error e => rw [h3] at h; simp at h
          | ok t0 =>
            rw [h3] at h
            dsimp only at h
            by_cases he : (normalizeText t0 == "") = true
            · rw [if_pos he] at h
              simp at h
            · rw [if_neg he] at h
              injection h with ha hb
              injection ha with hc
              exact ⟨by rw [← hc]; simpa using he,
                repaired, t0, h3, hc.symm⟩
  · rw [fallbackRepair_not_xref env e1 k0 (by simpa using hx)] at h
    simp at h

theorem extractOutcome_success_text (env : ParsingEnv) (t ex : String)
    (fb : Bool) (h : extractOutcome env = .success t ex fb) :
    t ≠ "" ∧ ∃ b raw, env.parse b = .ok raw ∧ t = normalizeText raw := by
  unfold extractOutcome at h
  cases h0 : tryPrimary env with
  | mk r0 k0 =>
    rw [h0] at h
    cases r0 with
    | ok t0 =>
      dsimp only at h
      injection h with h1 h2 h3
      exact h1 ▸ tryPrimary_ok env t0 k0 h0
    | error e1 =>
      dsimp only at h
      cases h1 : fallbackRepair env e1 k0 with
      | mk r1 k1 =>
        rw [h1] at h
        cases r1 with
        | ok t0 =>
          dsimp only at h
          injection h with ha hb hc
          obtain ⟨-, hne, hex⟩ := fallbackRepair_ok env e1 k0 t0 k1 h1
          exact ha ▸ ⟨hne, hex⟩
        | error e2 => simp at h

theorem extractOutcome_failure_not_xref (env : ParsingEnv) (e1 : String)
    (k : Nat) (h0 : tryPrimary env = (.error e1, k))
    (hx : isLikelyXrefError e1 = false) :
    extractOutcome env = .failure e1 := by
  unfold extractOutcome
  rw [h0]
  dsimp only
  rw [fallbackRepair_not_xref env e1 k hx]

theorem extractOutcome_repair_tagged (env : ParsingEnv) (t ex : String)
    (h : extractOutcome env = .success t ex true) :
    ex = "pdf-parse+pdf-lib-repair" ∧
      ∃ e1 k, tryPrimary env = (.error e1, k) ∧ isLikelyXrefError e1 = true := by
  unfold extractOutcome at h
  cases h0 : tryPrimary env with
  | mk r0 k0 =>
    rw [h0] at h
    cases r0 with
    | ok t0 =>
      dsimp only at h
      injection h with h1 h2 h3
      simp at h3
    | error e1 =>
      dsimp only at h
      cases h1 : fallbackRepair env e1 k0 with
      | mk r1 k1 =>
        rw [h1] at h
        cases r1 with
        | ok t0 =>
          dsimp only at h
          injection h with ha hb hc
          obtain ⟨hx, -, -⟩ := fallbackRepair_ok env e1 k0 t0 k1 h1
          exact ⟨hb.symm, e1, k0, rfl, hx⟩
        | error e2 => simp at h

/-! ## Claim C7 -/

theorem parsingSuccess_release_fields (s : Store) (i : String) (now : Millis)
    (t ex : String) (fb : Bool) (hkey : containsKey s i = true) :
    (getApp (releaseLease (setApp s i (parsingSuccessWrite t ex fb now))
        i now "success") i).extractedTextCombined = t ∧
    (getApp (releaseLease (setApp s i (parsingSuccessWrite t ex fb now))
        i now "success") i).extractedTextLength = some t.length ∧
    (getApp (releaseLease (setApp s i (parsingSuccessWrite t ex fb now))
        i now "success") i).extractor = some ex ∧
    (getApp (releaseLease (setApp s i (parsingSuccessWrite t ex fb now))
        i now "success") i).fallbackUsed = some fb ∧
    (getApp (releaseLease (setApp s i (parsingSuccessWrite t ex fb now))
        i now "success") i).processingStage = "analyzing" ∧
    (getApp (releaseLease (setApp s i (parsingSuccessWrite t ex fb now))
        i now "success") i).parsingError = none ∧
    (getApp (releaseLease (setApp s i (parsingSuccessWrite t ex fb now))
        i now "success") i).leaseReleaseReason = some "success" ∧
    (getApp (releaseLease (setApp s i (parsingSuccessWrite t ex fb now))
        i now "success") i).workerLease = none := by
  simp only [releaseLease]
  rw [getApp_setApp_self _ _ _ (by rw [containsKey_setApp]; exact hkey),
    getApp_setApp_self _ _ _ hkey]
  simp [parsingSuccessWrite]

theorem parsingFail_release_fields (s : Store) (i : String) (now : Millis)
    (e2 : String) (hkey : containsKey s i = true) :
    (getApp (releaseLease (setApp s i (parsingFailWrite e2 now))
        i now "failed") i).processingStage = "parsing_failed" ∧
    (getApp (releaseLease (setApp s i (parsingFailWrite e2 now))
        i now "failed") i).parsingError = some e2 ∧
    (getApp (releaseLease (setApp s i (parsingFailWrite e2 now))
        i now "failed") i).leaseReleaseReason = some "failed" ∧
    (getApp (releaseLease (setApp s i (parsingFailWrite e2 now))
        i now "failed") i).workerLease = none := by
  simp only [releaseLease]
  rw [getApp_setApp_self _ _ _ (by rw [containsKey_setApp]; exact hkey),
    getApp_setApp_self _ _ _ hkey]
  simp [parsingFailWrite]

/-- Claim C7: on every success path of the parsing worker — primary
extraction or repair fallback — the persisted `extractedTextCombined` is
some parse output with CRLF unified to LF and trimmed, it is non-empty,
`extractedTextLength` equals its length, the stage advances to
`analyzing`, any prior `parsingError` is cleared, and the lease is
released with reason `success`. -/
theorem C7_parsing_success (env : ParsingEnv) (expected got leaseId : String)
    (now : Millis) (s : Store) (c : ClaimedJob) (s1 : Store) (t ex : String)
    (fb : Bool)
    (hauth : ((expected != "") && (got != expected)) = false)
    (hclaim : claimOneParsingJob leaseId now s = (some c, s1))
    (hobj : ((getApp s1 c.appId).objectPath == "") = false)
    (hstage : ((getApp s1 c.appId).processingStage != "parsing") = false)
    (hout : extractOutcome env = .success t ex fb) :
    (parsingPOST env expected got (fun st => st) leaseId now s).1.status = 200 ∧
    (parsingPOST env expected got (fun st => st) leaseId now s).1.processed = 1 ∧
    (getApp (parsingPOST env expected got (fun st => st) leaseId now s).2
        c.appId).extractedTextCombined = t ∧
    t ≠ "" ∧
    (∃ b raw, env.parse b = .ok raw ∧ t = normalizeText raw) ∧
    (getApp (parsingPOST env expected got (fun st => st) leaseId now s).2
        c.appId).extractedTextLength = some t.length ∧
    (getApp (parsingPOST env expected got (fun st => st) leaseId now s).2
        c.appId).extractor = some ex ∧
    (getApp (parsingPOST env expected got (fun st => st) leaseId now s).2
        c.appId).fallbackUsed = some fb ∧
    (getApp (parsingPOST env expected got (fun st => st) leaseId now s).2
        c.appId).processingStage = "analyzing" ∧
    (getApp (parsingPOST env expected got (fun st => st) leaseId now s).2
        c.appId).parsingError = none ∧
    (getApp (parsingPOST env expected got (fun st => st) leaseId now s).2
        c.appId).leaseReleaseReason = some "success" ∧
    (getApp (parsingPOST env expected got (fun st => st) leaseId now s).2
        c.appId).workerLease = none := by
  have hkey1 : containsKey s1 c.appId = true :=
    claim_containsKey "parsing" StartMark.parsing leaseId now s c s1 hclaim
  have hpost : parsingPOST env expected got (fun st => st) leaseId now s
      = parseClaimed env now c s1 :=
    parsingPOST_claimed env expected got (fun st => st) leaseId now s c s1
      hauth hclaim
  obtain ⟨hne, hraw⟩ := extractOutcome_success_text env t ex fb hout
  obtain ⟨g1, g2, g3, g4, g5, g6, g7, g8⟩ :=
    parsingSuccess_release_fields s1 c.appId now t ex fb hkey1
  rw [hpost, parseClaimed_success env now c s1 t ex fb hobj hstage hout]
  exact ⟨rfl, rfl, g1, hne, hraw, g2, g3, g4, g5, g6, g7, g8⟩

/-- Witness for C7 at concrete inputs: the primary path persists the
normalized text of the parse output and advances the job. -/
theorem C7_parsing_success_witness :
    (getApp (parsingPOST plainEnv "" "" (fun st => st) "L" 3 c7Store).2
        "a7").extractedTextCombined = "Line1\nLine2" ∧
    (getApp (parsingPOST plainEnv "" "" (fun st => st) "L" 3 c7Store).2
        "a7").extractedTextLength = some 11 ∧
    (getApp (parsingPOST plainEnv "" "" (fun st => st) "L" 3 c7Store).2
        "a7").processingStage = "analyzing" ∧
    (getApp (parsingPOST plainEnv "" "" (fun st => st) "L" 3 c7Store).2
        "a7").parsingError = none ∧
    (getApp (parsingPOST plainEnv "" "" (fun st => st) "L" 3 c7Store).2
        "a7").leaseReleaseReason = some "success" := by
  obtain ⟨-, -, h3, -, -, h6, -, -, h9, h10, h11, -⟩ :=
    C7_parsing_success plainEnv "" "" "L" 3 c7Store
      { leaseId := "L", appId := "a7", app := c7Job }
      (setApp c7Store "a7" (claimWrite "parsing" StartMark.parsing "L" 3))
      "Line1\nLine2" "pdf-parse" false
      (by decide) (by decide) (by decide) (by decide) (by decide)
  exact ⟨h3, h6, h9, h10, h11⟩

/-- Witness for C1 at concrete inputs: a matching blocker rule forces the
decision `fail` even though a finding rule also matches. -/
theorem C1_decision_policy_witness :
    decisionOf (evalRules demoEng [demoBlockerRule, demoFindingRule]
      "a risk here") = "fail" :=
  (C1_decision_policy demoEng [demoBlockerRule, demoFindingRule]
    "a risk here").1.mpr
    ⟨demoBlockerRule, by simp, by decide, by decide⟩

/-! ## Claim C8 -/

/-- Claim C8: the PDF repair tool path runs only when the primary
extraction failure's signature matches the malformed-xref class: a
non-matching failure is terminal as-is (the fallback rethrows the
original error without consulting the repair oracle), while a successful
repair path is tagged `pdf-parse+pdf-lib-repair` with
`fallbackUsed = true` and advances the job to `analyzing`. -/
theorem C8_repair_fallback :
    (∀ (env : ParsingEnv) (e1 : String) (k : Nat),
      isLikelyXrefError e1 = false →
      fallbackRepair env e1 k = (.error e1, k)) ∧
    (∀ (env : ParsingEnv) (e1 : String) (k : Nat),
      tryPrimary env = (.error e1, k) → isLikelyXrefError e1 = false →
      extractOutcome env = .failure e1) ∧
    (∀ (env : ParsingEnv) (t ex : String),
      extractOutcome env = .success t ex true →
      ex = "pdf-parse+pdf-lib-repair" ∧
        ∃ e1 k, tryPrimary env = (.error e1, k) ∧
          isLikelyXrefError e1 = true) ∧
    (∀ (env : ParsingEnv) (expected got leaseId : String) (now : Millis)
        (s : Store) (c : ClaimedJob) (s1 : Store) (t : String),
      ((expected != "") && (got != expected)) = false →
      claimOneParsingJob leaseId now s = (some c, s1) →
      ((getApp s1 c.appId).objectPath == "") = false →
      ((getApp s1 c.appId).processingStage != "parsing") = false →
      extractOutcome env = .success t "pdf-parse+pdf-lib-repair" true →
      (getApp (parsingPOST env expected got (fun st => st) leaseId now s).2
          c.appId).fallbackUsed = some true ∧
      (getApp (parsingPOST env expected got (fun st => st) leaseId now s).2
          c.appId).extractor = some "pdf-parse+pdf-lib-repair" ∧
      (getApp (parsingPOST env expected got (fun st => st) leaseId now s).2
          c.appId).processingStage = "analyzing") := by
  refine ⟨fallbackRepair_not_xref, extractOutcome_failure_not_xref,
    extractOutcome_repair_tagged, ?_⟩
  intro env expected got leaseId now s c s1 t hauth hclaim hobj hstage hout
  have hkey1 : containsKey s1 c.appId = true :=
    claim_containsKey "parsing" StartMark.parsing leaseId now s c s1 hclaim
  obtain ⟨-, -, g3, g4, g5, -, -, -⟩ :=
    parsingSuccess_release_fields s1 c.appId now t "pdf-parse+pdf-lib-repair"
      true hkey1
  rw [parsingPOST_claimed env expected got (fun st => st) leaseId now s c s1
    hauth hclaim,
    parseClaimed_success env now c s1 t "pdf-parse+pdf-lib-repair" true
      hobj hstage hout]
  exact ⟨g4, g3, g5⟩

/-- Witness for C8 at concrete inputs: a bad-xref primary failure is
repaired; the record carries the repair extractor tag and
`fallbackUsed = true` and the job advances. -/
theorem C8_repair_fallback_witness :
    (getApp (parsingPOST xrefEnv "" "" (fun st => st) "L" 4 c7Store).2
        "a7").fallbackUsed = some true ∧
    (getApp (parsingPOST xrefEnv "" "" (fun st => st) "L" 4 c7Store).2
        "a7").extractor = some "pdf-parse+pdf-lib-repair" ∧
    (getApp (parsingPOST xrefEnv "" "" (fun st => st) "L" 4 c7Store).2
        "a7").processingStage = "analyzing" :=
  C8_repair_fallback.2.2.2 xrefEnv "" "" "L" 4 c7Store
    { leaseId := "L", appId := "a7", app := c7Job }
    (setApp c7Store "a7" (claimWrite "parsing" StartMark.parsing "L" 4))
    "Fixed text"
    (by decide) (by decide) (by decide) (by decide) (by decide)

/-! ## Claim C9 -/

/-- Every authorized path of the analyzing route answers HTTP 200. -/
theorem analyzeClaimed_status (eng : RegexEngine) (db : Db) (now : Millis)
    (c : ClaimedJob) (s2 : Store) :
    (analyzeClaimed eng db now c s2).1.status = 200 := by
  simp only [analyzeClaimed]
  repeat' split
  all_goals rfl

/-- Every post-claim path of the parsing route answers 200 or 500. -/
theorem parseClaimed_status (env : ParsingEnv) (now : Millis)
    (c : ClaimedJob) (s2 : Store) :
    (parseClaimed env now c s2).1.status = 200
      ∨ (parseClaimed env now c s2).1.status = 500 := by
  simp only [parseClaimed]
  repeat' split
  all_goals first
  | exact Or.inl rfl
  | exact Or.inr rfl

theorem parsingObjFail_release_fields (s : Store) (i : String) (now : Millis)
    (hkey : containsKey s i = true) :
    (getApp (releaseLease (setApp s i (fun a =>
        { a with processingStage := "parsing_failed",
                 parsingError := some "Missing required field: objectPath",
                 parsingFailedAt := some now, updatedAt := now }))
        i now "failed") i).processingStage = "parsing_failed" ∧
    (getApp (releaseLease (setApp s i (fun a =>
        { a with processingStage := "parsing_failed",
                 parsingError := some "Missing required field: objectPath",
                 parsingFailedAt := some now, updatedAt := now }))
        i now "failed") i).parsingError
      = some "Missing required field: objectPath" ∧
    (getApp (releaseLease (setApp s i (fun a =>
        { a with processingStage := "parsing_failed",
                 parsingError := some "Missing required field: objectPath",
                 parsingFailedAt := some now, updatedAt := now }))
        i now "failed") i).leaseReleaseReason = some "failed" ∧
    (getApp (releaseLease (setApp s i (fun a =>
        { a with processingStage := "parsing_failed",
                 parsingError := some "Missing required field: objectPath",
                 parsingFailedAt := some now, updatedAt := now }))
        i now "failed") i).workerLease = none := by
  simp only [releaseLease]
  rw [getApp_setApp_self _ _ _ (by rw [containsKey_setApp]; exact hkey),
    getApp_setApp_self _ _ _ hkey]
  simp

/-- Counterexample to claim C9: a handled per-job failure of the parsing
worker — the job is recorded `parsing_failed` with its lease released
`failed`, and the pipeline can keep ticking — yet the HTTP response is
500, not the claimed 200. -/
theorem C9_counterexample :
    (getApp (parsingPOST failEnv "" "" (fun st => st) "L" 8 c9Store).2
        "a9").processingStage = "parsing_failed" ∧
    (getApp (parsingPOST failEnv "" "" (fun st => st) "L" 8 c9Store).2
        "a9").leaseReleaseReason = some "failed" ∧
    (parsingPOST failEnv "" "" (fun st => st) "L" 8 c9Store).1.status = 500 ∧
    (parsingPOST failEnv "" "" (fun st => st) "L" 8 c9Store).1.processed = 0 := by
  refine ⟨by decide, by decide, by decide, by decide⟩

/-- Claim C9 (amended): "no work" returns HTTP 200 with `processed = 0`
for both workers; the analyzing worker returns HTTP 200 on every
authorized path (handled failures included); the parsing worker returns
HTTP 500 with `ok = false`, `processed = 0` for handled per-job failures
recorded as `parsing_failed` (terminal extraction failure and the
missing-`objectPath` case), and its authorized responses are only 200 or
500 — 401 arises only from authentication. -/
theorem C9_status_amended :
    (∀ (env : ParsingEnv) (expected got : String) (interfere : Store → Store)
        (leaseId : String) (now : Millis) (s s1 : Store),
      ((expected != "") && (got != expected)) = false →
      claimOneParsingJob leaseId now s = (none, s1) →
      (parsingPOST env expected got interfere leaseId now s).1.status = 200 ∧
      (parsingPOST env expected got interfere leaseId now s).1.processed = 0) ∧
    (∀ (eng : RegexEngine) (db : Db) (expected got : String)
        (interfere : Store → Store) (leaseId : String) (now : Millis)
        (s s1 : Store),
      (expected == "") = false →
      ((got == "") || (got != expected)) = false →
      claimOneAnalyzingJob leaseId now s = (none, s1) →
      (analyzingPOST eng db expected got interfere leaseId now s).1.status = 200 ∧
      (analyzingPOST eng db expected got interfere leaseId now s).1.processed = 0) ∧
    (∀ (eng : RegexEngine) (db : Db) (expected got : String)
        (interfere : Store → Store) (leaseId : String) (now : Millis) (s : Store),
      (expected == "") = false →
      ((got == "") || (got != expected)) = false →
      (analyzingPOST eng db expected got interfere leaseId now s).1.status = 200) ∧
    (∀ (env : ParsingEnv) (expected got leaseId : String) (now : Millis)
        (s : Store) (c : ClaimedJob) (s1 : Store),
      ((expected != "") && (got != expected)) = false →
      claimOneParsingJob leaseId now s = (some c, s1) →
      ((getApp s1 c.appId).objectPath == "") = true →
      (parsingPOST env expected got (fun st => st) leaseId now s).1.status = 500 ∧
      (parsingPOST env expected got (fun st => st) leaseId now s).1.ok = false ∧
      (parsingPOST env expected got (fun st => st) leaseId now s).1.processed = 0 ∧
      (getApp (parsingPOST env expected got (fun st => st) leaseId now s).2
          c.appId).processingStage = "parsing_failed" ∧
      (getApp (parsingPOST env expected got (fun st => st) leaseId now s).2
          c.appId).leaseReleaseReason = some "failed") ∧
    (∀ (env : ParsingEnv) (expected got leaseId : String) (now : Millis)
        (s : Store) (c : ClaimedJob) (s1 : Store) (e2 : String),
      ((expected != "") && (got != expected)) = false →
      claimOneParsingJob leaseId now s = (some c, s1) →
      ((getApp s1 c.appId).objectPath == "") = false →
      ((getApp s1 c.appId).processingStage != "parsing") = false →
      extractOutcome env = .failure e2 →
      (parsingPOST env expected got (fun st => st) leaseId now s).1.status = 500 ∧
      (parsingPOST env expected got (fun st => st) leaseId now s).1.ok = false ∧
      (parsingPOST env expected got (fun st => st) leaseId now s).1.processed = 0 ∧
      (getApp (parsingPOST env expected got (fun st => st) leaseId now s).2
          c.appId).processingStage = "parsing_failed" ∧
      (getApp (parsingPOST env expected got (fun st => st) leaseId now s).2
          c.appId).parsingError = some e2 ∧
      (getApp (parsingPOST env expected got (fun st => st) leaseId now s).2
          c.appId).leaseReleaseReason = some "failed") ∧
    (∀ (env : ParsingEnv) (expected got : String) (interfere : Store → Store)
        (leaseId : String) (now : Millis) (s : Store),
      ((expected != "") && (got != expected)) = false →
      (parsingPOST env expected got interfere leaseId now s).1.status ≠ 401) := by
  refine ⟨?_, ?_, ?_, ?_, ?_, ?_⟩
  · intro env expected got interfere leaseId now s s1 hauth hclaim
    rw [parsingPOST_noclaim env expected got interfere leaseId now s s1
      hauth hclaim]
    exact ⟨rfl, rfl⟩
  · intro eng db expected got interfere leaseId now s s1 hexp hgot hclaim
    rw [analyzingPOST_noclaim eng db expected got interfere leaseId now s s1
      hexp hgot hclaim]
    exact ⟨rfl, rfl⟩
  · intro eng db expected got interfere leaseId now s hexp hgot
    cases h0 : claimOneAnalyzingJob leaseId now s with
    | mk o s1 =>
      cases o with
      | none =>
        rw [analyzingPOST_noclaim eng db expected got interfere leaseId now s s1
          hexp hgot h0]
      | some c =>
        rw [analyzingPOST_claimed eng db expected got interfere leaseId now s c s1
          hexp hgot h0]
        exact analyzeClaimed_status eng db now c (interfere s1)
  · intro env expected got leaseId now s c s1 hauth hclaim hobj
    have hkey1 : containsKey s1 c.appId = true :=
      claim_containsKey "parsing" StartMark.parsing leaseId now s c s1 hclaim
    obtain ⟨g1, -, g3, -⟩ := parsingObjFail_release_fields s1 c.appId now hkey1
    rw [parsingPOST_claimed env expected got (fun st => st) leaseId now s c s1
      hauth hclaim, parseClaimed_noObjectPath env now c s1 hobj]
    exact ⟨rfl, rfl, rfl, g1, g3⟩
  · intro env expected got leaseId now s c s1 e2 hauth hclaim hobj hstage hout
    have hkey1 : containsKey s1 c.appId = true :=
      claim_containsKey "parsing" StartMark.parsing leaseId now s c s1 hclaim
    obtain ⟨g1, g2, g3, -⟩ := parsingFail_release_fields s1 c.appId now e2 hkey1
    rw [parsingPOST_claimed env expected got (fun st => st) leaseId now s c s1
      hauth hclaim, parseClaimed_failure env now c s1 e2 hobj hstage hout]
    exact ⟨rfl, rfl, rfl, g1, g2, g3⟩
  · intro env expected got interfere leaseId now s hauth
    cases h0 : claimOneParsingJob leaseId now s with
    | mk o s1 =>
      cases o with
      | none =>
        rw [parsingPOST_noclaim env expected got interfere leaseId now s s1
          hauth h0]
        simp
      | some c =>
        rw [parsingPOST_claimed env expected got interfere leaseId now s c s1
          hauth h0]
        rcases parseClaimed_status env now c (interfere s1) with h | h <;>
          simp [h]

/-- Witness for the amended C9 at concrete inputs: a terminal extraction
failure is recorded as `parsing_failed` and answered with HTTP 500. -/
theorem C9_status_amended_witness :
    (parsingPOST failEnv "" "" (fun st => st) "L" 11 c9Store).1.status = 500 ∧
    (getApp (parsingPOST failEnv "" "" (fun st => st) "L" 11 c9Store).2
        "a9").processingStage = "parsing_failed" := by
  obtain ⟨h1, -, -, h4, -, -⟩ :=
    C9_status_amended.2.2.2.2.1 failEnv "" "" "L" 11 c9Store
      { leaseId := "L", appId := "a9", app := c9Job }
      (setApp c9Store "a9" (claimWrite "parsing" StartMark.parsing "L" 11))
      "network down"
      (by decide) (by decide) (by decide) (by decide) (by decide)
  exact ⟨h1, h4⟩
